import Mathlib

/- Verification of the plain-text → HTML report renderer of
   analyze_company_combined.py: clean_text, parse_to_sections,
   render_table, build_nav, build_html_report.
   Strings are modelled as lists of characters; the Python regexes are
   compiled by hand into deterministic matchers (each one is annotated
   with the regex it implements). -/

abbrev Str := List Char

/-- Backquote character (code 96), used by the code-fence and inline-code rules. -/
def btick : Char := Char.ofNat 96

/-- Apostrophe character (code 39), escaped by html.escape. -/
def apos : Char := Char.ofNat 39

/-- Python's whitespace class for str.strip and the regex class \s
    (ASCII part: space, tab, newline, carriage return, vertical tab, form feed). -/
def isPySpace (c : Char) : Bool :=
  c == ' ' || c == '\t' || c == '\n' || c == '\r' || c == Char.ofNat 11 || c == Char.ofNat 12

/-- Leading-whitespace strip, i.e. the effect of a leading regex \s* or str.lstrip(). -/
def lstrip (s : Str) : Str := s.dropWhile isPySpace

/-- Trailing-whitespace strip, i.e. str.rstrip(). -/
def rstrip (s : Str) : Str := (s.reverse.dropWhile isPySpace).reverse

/-- str.strip() with no arguments. -/
def pyStrip (s : Str) : Str := rstrip (lstrip s)

/-- str.rstrip(chr(13)): remove trailing carriage returns only (line 252 of the source). -/
def rstripCR (s : Str) : Str := (s.reverse.dropWhile (· == '\r')).reverse

/-- Per-character part of html.escape (quote=True): the five special characters. -/
def escChar (c : Char) : Str :=
  if c == '&' then "&amp;".data
  else if c == '<' then "&lt;".data
  else if c == '>' then "&gt;".data
  else if c == '"' then "&quot;".data
  else if c == apos then "&#x27;".data
  else [c]

/-- html.escape with quote=True; the sequential str.replace calls of the Python
    implementation amount to this character-wise map because no replacement
    output contains a character that a later replace rewrites. -/
def htmlEscape (s : Str) : Str := (s.map escChar).flatten

/-- str.splitlines, restricted to the terminators that can occur here:
    LF, CR, CRLF.  A trailing terminator does not produce a final empty line,
    and the empty string yields no lines. -/
def splitlinesGo : Str → Str → List Str
  | [], acc => [acc.reverse]
  | '\r' :: '\n' :: rest, acc =>
      acc.reverse :: (if rest.isEmpty then [] else splitlinesGo rest [])
  | '\r' :: rest, acc =>
      acc.reverse :: (if rest.isEmpty then [] else splitlinesGo rest [])
  | '\n' :: rest, acc =>
      acc.reverse :: (if rest.isEmpty then [] else splitlinesGo rest [])
  | c :: rest, acc => splitlinesGo rest (c :: acc)

def splitlines (s : Str) : List Str :=
  if s.isEmpty then [] else splitlinesGo s []

/-- str.split(sep) for a one-character separator, no maxsplit (Python semantics:
    the empty string splits to one empty field). -/
def pySplitCharGo (sep : Char) : Str → Str → List Str
  | [], acc => [acc.reverse]
  | c :: rest, acc =>
      if c == sep then acc.reverse :: pySplitCharGo sep rest []
      else pySplitCharGo sep rest (c :: acc)

def pySplitChar (sep : Char) (s : Str) : List Str := pySplitCharGo sep s []

/-- sep.join(parts). -/
def pyJoin (sep : Str) : List Str → Str
  | [] => []
  | [part] => part
  | part :: parts => part ++ sep ++ pyJoin sep parts

/-- Is the first character (if any) whitespace?  Used for the regex piece \s+ . -/
def headSpace : Str → Bool
  | c :: _ => isPySpace c
  | [] => false

/- ===== Line matchers, compiled from the module-level regexes ===== -/

/-- Maximal-munch continuation of a dotted numeral: after an initial digit run,
    repeatedly consume a dot followed by a digit run.  Implements the
    (\.\d+)* part of _heading_num; returns the extra numeral characters and
    the remaining input.  Fueled by the input length. -/
def dottedTail : Nat → Str → Str × Str
  | 0, s => ([], s)
  | fuel+1, s =>
    match s with
    | '.' :: rest =>
      let ds := rest.takeWhile Char.isDigit
      if ds.isEmpty then ([], '.' :: rest)
      else
        let p := dottedTail fuel (rest.drop ds.length)
        ('.' :: (ds ++ p.1), p.2)
    | other => ([], other)

/-- _heading_num = ^\s*(\d+(?:\.\d+)*)[.)]\s+(.*\S)\s*$ — returns
    (group 1, group 2).  Backtracking into a shorter numeral can never
    succeed (it would put a digit right after the [.)]), so maximal munch
    followed by the delimiter check is equivalent to the regex. -/
def headingNum (line : Str) : Option (Str × Str) :=
  let s := lstrip line
  let ds := s.takeWhile Char.isDigit
  if ds.isEmpty then none
  else
    let p := dottedTail s.length (s.drop ds.length)
    let num := ds ++ p.1
    match p.2 with
    | d :: rest2 =>
      if (d == '.' || d == ')') && headSpace rest2 && !(pyStrip rest2).isEmpty then
        some (num, pyStrip rest2)
      else none
    | [] => none

/-- _heading_md = ^\s*(#{1,6})\s+(.*\S)\s*$ — returns (number of hashes,
    group 2).  Seven or more hashes cannot match: after at most six hashes
    the \s+ would face another hash. -/
def headingMd (line : Str) : Option (Nat × Str) :=
  let s := lstrip line
  let hs := s.takeWhile (· == '#')
  let n := hs.length
  let rest := s.drop n
  if decide (1 ≤ n) && decide (n ≤ 6) && headSpace rest && !(pyStrip rest).isEmpty then
    some (n, pyStrip rest)
  else none

/-- _ul_item = ^\s*[-*]\s+(.*\S)\s*$ — returns group 1. -/
def ulItem (line : Str) : Option Str :=
  match lstrip line with
  | c :: rest =>
      if (c == '-' || c == '*') && headSpace rest && !(pyStrip rest).isEmpty then
        some (pyStrip rest)
      else none
  | [] => none

/-- _ol_item = ^\s*\d+\.\s+(.*\S)\s*$ — returns group 1. -/
def olItem (line : Str) : Option Str :=
  let s := lstrip line
  let ds := s.takeWhile Char.isDigit
  if ds.isEmpty then none
  else
    match s.drop ds.length with
    | '.' :: rest =>
        if headSpace rest && !(pyStrip rest).isEmpty then some (pyStrip rest) else none
    | _ => none

/-- _table_row = ^\s*\|(.+)\|\s*$ — returns group 1 (the greedy .+ makes the
    second bar the last one before the trailing whitespace). -/
def tableRowMatch (line : Str) : Option Str :=
  match lstrip line with
  | '|' :: body =>
    match (rstrip body).reverse with
    | '|' :: g => if g.isEmpty then none else some g.reverse
    | _ => none
  | _ => none

/-- Characters admitted by the regex class [:\-]. -/
def colonDash (c : Char) : Bool := c == ':' || c == '-'

/-- One repetition of the group :?-{3,}:?\s*\| of _table_sep; returns the rest.
    Each sub-piece is forced (a skipped optional colon or a shortened dash run
    would leave a character no later piece accepts), so this is deterministic. -/
def sepGroup (s : Str) : Option Str :=
  let s1 := match s with | ':' :: r => r | other => other
  let ds := s1.takeWhile (· == '-')
  if ds.length < 3 then none
  else
    let s2 := s1.drop ds.length
    let s3 := match s2 with | ':' :: r => r | other => other
    match lstrip s3 with
    | '|' :: r => some r
    | _ => none

/-- The closing piece \|?\s*$ shared by the tail of _table_sep. -/
def pipeEnd (t : Str) : Bool :=
  match lstrip t with
  | [] => true
  | '|' :: u => (lstrip u).isEmpty
  | _ => false

/-- The tail \s*(?:[:\-]{3,})?\s*\|?\s*$ of _table_sep. -/
def sepTail (s : Str) : Bool :=
  let s1 := lstrip s
  let run := s1.takeWhile colonDash
  if run.isEmpty then pipeEnd s1
  else if 3 ≤ run.length then pipeEnd (s1.drop run.length)
  else false

/-- Greedy iteration of sepGroup followed by sepTail.  Taking the maximal
    number of groups is equivalent to the regex with backtracking: if the
    tail can absorb a further group occurrence, the input after that group
    is all whitespace and the tail accepts it as well. -/
def sepLoop : Nat → Str → Bool
  | 0, s => sepTail s
  | fuel+1, s =>
    match sepGroup s with
    | some r => sepLoop fuel r
    | none => sepTail s

/-- _table_sep = ^\s*\|?\s*(:?-{3,}:?\s*\|)+\s*(?:[:\-]{3,})?\s*\|?\s*$ . -/
def tableSepMatch (line : Str) : Bool :=
  let s0 := lstrip line
  let s1 := match s0 with | '|' :: r => r | other => other
  let s2 := lstrip s1
  match sepGroup s2 with
  | some r => sepLoop s2.length r
  | none => false

/-- Lower-casing as re.IGNORECASE sees the characters that occur in the
    callout keywords: ASCII letters and the Cyrillic range А..Я. -/
def lowerRu (c : Char) : Char :=
  if 'A' ≤ c ∧ c ≤ 'Z' then Char.ofNat (c.toNat + 32)
  else if 'А' ≤ c ∧ c ≤ 'Я' then Char.ofNat (c.toNat + 32)
  else if c = 'Ё' then 'ё' else c

/-- Does s start (case-insensitively) with the given lowercase keyword? -/
def kwMatch (kw : Str) (s : Str) : Bool :=
  (s.take kw.length).map lowerRu == kw

/-- The callout regex ^\s*(Внимание|Важно|Примечание)\s*[:\-–] with
    re.IGNORECASE (re.match, so only anchored at the start). -/
def calloutMatch (line : Str) : Bool :=
  let s := lstrip line
  ["внимание".data, "важно".data, "примечание".data].any fun kw =>
    kwMatch kw s &&
      (match lstrip (s.drop kw.length) with
       | c :: _ => c == ':' || c == '-' || c == '–'
       | [] => false)

/- ===== Data model: the section dictionaries of parse_to_sections ===== -/

/-- The two values of the list_type field ("ul" / "ol"); None is Option.none. -/
inductive ListKind where
  | ul : ListKind
  | ol : ListKind
deriving DecidableEq, Repr

/-- One section dictionary as built by parse_to_sections. -/
structure ReportSection where
  title : Str
  level : Nat
  id : Str
  blocks : List Str
  listType : Option ListKind
  tableRows : Option (List Str)
  inCode : Bool
  codeBuf : List Str
deriving DecidableEq, Repr

/-- The code-block markup emitted when a code buffer is flushed. -/
def codeHtml (buf : List Str) : Str :=
  "<pre><code>".data ++ htmlEscape (pyJoin ['\n'] buf) ++ "</code></pre>".data

/-- One table row: pipe-split cells, stripped, escaped; th for the first
    enumerated row and td for all later ones. -/
def mkTr (isTh : Bool) (g : Str) : Str :=
  let cells := (pySplitChar '|' g).map pyStrip
  let tag : Str := if isTh then "th".data else "td".data
  "<tr>".data ++
    (cells.map fun c =>
      ('<' :: tag) ++ ('>' :: htmlEscape c) ++ "</".data ++ tag ++ ['>']).flatten ++
  "</tr>".data

/-- The tr list of render_table: enumerate the rows, skip those not matching
    _table_row, tag index 0 th and the rest td. -/
def trRows (rows : List Str) : List Str :=
  rows.enum.filterMap fun p => (tableRowMatch p.2).map fun g => mkTr (p.1 == 0) g

/-- Wrapping of the tr list: first tr into thead, the rest into tbody;
    an empty list renders as the empty string. -/
def assembleTable : List Str → Str
  | [] => []
  | t :: ts =>
      "<div class='table-wrap'><table><thead>".data ++ t ++
      "</thead><tbody>".data ++ ts.flatten ++ "</tbody></table></div>".data

/-- render_table: drop row 2 when it is a separator row, then build the rows. -/
def renderTable (rows : List Str) : Str :=
  match rows with
  | [] => []
  | r0 :: r1 :: rest =>
      if tableSepMatch r1 then assembleTable (trRows (r0 :: rest))
      else assembleTable (trRows rows)
  | _ => assembleTable (trRows rows)

/-- close_open_blocks: flush an open code buffer, then close an open list,
    then flush a non-empty table buffer — in that order.  Note the Python
    truthiness test on table_rows: an empty buffer is not flushed. -/
def closeOpenBlocks (sec : ReportSection) : ReportSection :=
  let sec1 :=
    if sec.inCode then
      { sec with blocks := sec.blocks ++ [codeHtml sec.codeBuf],
                 inCode := false, codeBuf := [] }
    else sec
  let sec2 :=
    match sec1.listType with
    | some ListKind.ul => { sec1 with blocks := sec1.blocks ++ ["</ul>".data], listType := none }
    | some ListKind.ol => { sec1 with blocks := sec1.blocks ++ ["</ol>".data], listType := none }
    | none => sec1
  match sec2.tableRows with
  | some (r :: rs) =>
      { sec2 with blocks := sec2.blocks ++ [renderTable (r :: rs)], tableRows := none }
  | _ => sec2

/-- The state of the line loop: the finished sections and the current one.
    (The Python `current` is never None once the loop starts.) -/
structure PState where
  sections : List ReportSection
  current : ReportSection
deriving DecidableEq, Repr

/-- A fresh section dictionary.  The slugify function (Unicode NFKD
    transliteration with a random fallback for empty slugs) is kept abstract
    as the parameter `slug`: no claim in scope depends on its value. -/
def newSection (slug : Str → Str) (title : Str) (level : Nat) : ReportSection :=
  { title := pyStrip title, level := level, id := slug title,
    blocks := [], listType := none, tableRows := none, inCode := false, codeBuf := [] }

/-- start_section as called from inside the loop: finalize the current
    section, append it, and make a fresh one current. -/
def startSection (slug : Str → Str) (st : PState) (title : Str) (level : Nat) : PState :=
  { sections := st.sections ++ [closeOpenBlocks st.current],
    current := newSection slug title level }

/-- add_paragraph. -/
def addParagraph (sec : ReportSection) (textLine : Str) : ReportSection :=
  if (pyStrip textLine).isEmpty then sec
  else
    { sec with blocks :=
        sec.blocks ++ ["<p>".data ++ htmlEscape (pyStrip textLine) ++ "</p>".data] }

/-- The callout block literal built at lines 324–326 of the source:
    label = line.split(':', 1)[0], body = ':'.join(line.split(':')[1:]).strip(). -/
def calloutBlock (line : Str) : Str :=
  let parts := pySplitChar ':' line
  "<div class='callout'><strong>".data ++ htmlEscape (parts.headD []) ++
  ":</strong> ".data ++ htmlEscape (pyStrip (pyJoin [':'] parts.tail)) ++ "</div>".data

/-- The part of the loop body after the heading and table rules: list items,
    closing a left-open list, callouts, paragraphs and spacers. -/
def listStage (st : PState) (line : Str) : PState :=
  let cur := st.current
  match ulItem line with
  | some content =>
    let cur1 :=
      if cur.listType ≠ some ListKind.ul then
        let c := closeOpenBlocks cur
        { c with blocks := c.blocks ++ ["<ul>".data], listType := some ListKind.ul }
      else cur
    { st with current :=
        { cur1 with blocks := cur1.blocks ++ ["<li>".data ++ htmlEscape content ++ "</li>".data] } }
  | none =>
  match olItem line with
  | some content =>
    let cur1 :=
      if cur.listType ≠ some ListKind.ol then
        let c := closeOpenBlocks cur
        { c with blocks := c.blocks ++ ["<ol>".data], listType := some ListKind.ol }
      else cur
    { st with current :=
        { cur1 with blocks := cur1.blocks ++ ["<li>".data ++ htmlEscape content ++ "</li>".data] } }
  | none =>
    let cur1 :=
      match cur.listType with
      | some ListKind.ul => { cur with blocks := cur.blocks ++ ["</ul>".data], listType := none }
      | some ListKind.ol => { cur with blocks := cur.blocks ++ ["</ol>".data], listType := none }
      | none => cur
    if calloutMatch line then
      { st with current := { cur1 with blocks := cur1.blocks ++ [calloutBlock line] } }
    else if !(pyStrip line).isEmpty then
      { st with current := addParagraph cur1 line }
    else
      { st with current :=
          { cur1 with blocks := cur1.blocks ++ ["<div class='spacer'></div>".data] } }

/-- Python truthiness of the table_rows field. -/
def truthyTR : Option (List Str) → Bool
  | some (_ :: _) => true
  | _ => false

/-- One iteration of the line loop of parse_to_sections.  The fence and the
    numeric-heading and table rules look at the CR-stripped line; the
    markdown-heading rule and the code buffer use the raw line, exactly as
    in the source. -/
def processLine (slug : Str → Str) (st : PState) (raw : Str) : PState :=
  let line := rstripCR raw
  let cur := st.current
  if ("```".data).isPrefixOf (pyStrip line) then
    if !cur.inCode then
      let c := closeOpenBlocks cur
      { st with current := { c with inCode := true, codeBuf := [] } }
    else
      { st with current :=
          { cur with blocks := cur.blocks ++ [codeHtml cur.codeBuf],
                     inCode := false, codeBuf := [] } }
  else if cur.inCode then
    { st with current := { cur with codeBuf := cur.codeBuf ++ [raw] } }
  else
    match headingNum line with
    | some nr => startSection slug st (nr.1 ++ ' ' :: nr.2) (pySplitChar '.' nr.1).length
    | none =>
    match headingMd raw with
    | some lr => startSection slug st lr.2 lr.1
    | none =>
      if (tableRowMatch line).isSome then
        let cur1 :=
          if cur.tableRows = none then
            let c := closeOpenBlocks cur
            { c with tableRows := some [] }
          else cur
        { st with current :=
            { cur1 with tableRows := some ((cur1.tableRows.getD []) ++ [line]) } }
      else if truthyTR cur.tableRows then
        let flushed :=
          { cur with blocks := cur.blocks ++ [renderTable (cur.tableRows.getD [])],
                     tableRows := none }
        if (pyStrip line).isEmpty then { st with current := flushed }
        else listStage { st with current := flushed } line
      else
        listStage st line

/-- Title of the implicit first section. -/
def defaultTitle : Str := "Аналитический отчёт".data

/-- parse_to_sections. -/
def parseToSections (slug : Str → Str) (text : Str) : List ReportSection :=
  let lines := splitlines text
  let st0 : PState := { sections := [], current := newSection slug defaultTitle 1 }
  let st := lines.foldl (processLine slug) st0
  st.sections ++ [closeOpenBlocks st.current]

/- ===== build_nav ===== -/

/-- The wrapper-opening token appended by open_ul. -/
def tocOpen : Str := "<ul class='toc'>".data

/-- The wrapper-closing token appended by close_ul. -/
def tocClose : Str := "</ul>".data

/-- The link entry emitted for one section. -/
def mkLink (sec : ReportSection) : Str :=
  "<li><a href='#".data ++ sec.id ++ "' data-target='".data ++ sec.id ++
  "'>".data ++ htmlEscape sec.title ++ "</a></li>".data

/-- The loop `while lvl > prev_level: open_ul(); prev_level += 1`.
    The fuel bounds the iteration count; it is always called with enough. -/
def navOpenLoop : Nat → List Str → List Nat → Nat → Nat → List Str × List Nat × Nat
  | 0, nav, stack, prev, _ => (nav, stack, prev)
  | fuel+1, nav, stack, prev, lvl =>
    if prev < lvl then navOpenLoop fuel (nav ++ [tocOpen]) (stack ++ [1]) (prev + 1) lvl
    else (nav, stack, prev)

/-- close_ul: guarded by the stack length. -/
def closeUl (nav : List Str) (stack : List Nat) : List Str × List Nat :=
  if 1 < stack.length then (nav ++ [tocClose], stack.dropLast) else (nav, stack)

/-- The loop `while lvl < prev_level: close_ul(); prev_level -= 1`. -/
def navCloseLoop : Nat → List Str → List Nat → Nat → Nat → List Str × List Nat × Nat
  | 0, nav, stack, prev, _ => (nav, stack, prev)
  | fuel+1, nav, stack, prev, lvl =>
    if lvl < prev then
      let p := closeUl nav stack
      navCloseLoop fuel p.1 p.2 (prev - 1) lvl
    else (nav, stack, prev)

/-- The per-section loop of build_nav. -/
def navGo : List ReportSection → List Str → List Nat → Nat → Bool → List Str × List Nat
  | [], nav, stack, _, _ => (nav, stack)
  | sec :: rest, nav, stack, prev, opened =>
    let lvl := max 1 (min 6 sec.level)
    let p0 := if opened then (nav, stack) else (nav ++ [tocOpen], stack ++ [1])
    let p1 := navOpenLoop lvl p0.1 p0.2 prev lvl
    let p2 := navCloseLoop p1.2.2 p1.1 p1.2.1 p1.2.2 lvl
    navGo rest (p2.1 ++ [mkLink sec]) p2.2.1 p2.2.2 true

/-- The final loop `while len(level_stack) > 1: close_ul()`. -/
def navFinalGo : Nat → List Str → List Nat → List Str
  | 0, nav, _ => nav
  | fuel+1, nav, stack =>
    if 1 < stack.length then
      let p := closeUl nav stack
      navFinalGo fuel p.1 p.2
    else nav

/-- build_nav before the final string join: the list of appended fragments. -/
def buildNavList (sections : List ReportSection) : List Str :=
  let p := navGo sections [] [0] 1 false
  navFinalGo p.2.length p.1 p.2

/-- build_nav. -/
def buildNav (sections : List ReportSection) : Str := (buildNavList sections).flatten

/- ===== clean_text ===== -/

/-- Length of a match of ^\s*#{1,6}\s* at this position (None when there is
    no hash after the leading whitespace).  The leading \s* must end exactly
    at the first hash, so maximal munch is exact; a seventh hash simply stops
    the trailing \s* at length zero. -/
def hashMatch (s : Str) : Option Nat :=
  let w := s.takeWhile isPySpace
  let rest := s.drop w.length
  let hs := rest.takeWhile (· == '#')
  if hs.isEmpty then none
  else
    let k := min hs.length 6
    let rest2 := rest.drop k
    some (w.length + k + (rest2.takeWhile isPySpace).length)

/-- re.sub(^\s*#{1,6}\s*, "", text, flags=re.MULTILINE): scan the text,
    attempting the pattern at the string start and after every newline;
    a match is deleted and scanning resumes after it (the deleted text can
    itself end with a newline, re-arming the anchor). -/
def cleanHashesGo : Nat → Bool → Str → Str
  | 0, _, s => s
  | fuel+1, caret, s =>
    match s with
    | [] => []
    | c :: rest =>
      if caret then
        match hashMatch s with
        | some n => cleanHashesGo fuel ((s.take n).getLast? == some '\n') (s.drop n)
        | none => c :: cleanHashesGo fuel (c == '\n') rest
      else c :: cleanHashesGo fuel (c == '\n') rest

def cleanHashes (s : Str) : Str := cleanHashesGo (s.length + 1) true s

/-- Earliest split of the input as inner ++ "**" ++ after (the non-greedy
    (.*?) of the bold pattern, with re.DOTALL). -/
def findClose : Str → Option (Str × Str)
  | [] => none
  | '*' :: '*' :: r => some ([], r)
  | c :: r => (findClose r).map fun p => (c :: p.1, p.2)

/-- re.sub(\*\*(.*?)\*\*, \1, text, flags=re.DOTALL): an opening ** with a
    later ** keeps only the enclosed text; an unmatched ** is left as is. -/
def boldGo : Nat → Str → Str
  | 0, s => s
  | _+1, [] => []
  | fuel+1, '*' :: '*' :: rest =>
    (match findClose rest with
     | some p => p.1 ++ boldGo fuel p.2
     | none => '*' :: boldGo fuel ('*' :: rest))
  | fuel+1, c :: rest => c :: boldGo fuel rest

/-- The `([^X]+)X` shape of the inline-code pattern, X the backquote:
    at least one non-backquote character up to the next backquote. -/
def findTick (s : Str) : Option (Str × Str) :=
  let inner := s.takeWhile (fun c => !(c == btick))
  if inner.isEmpty then none
  else
    match s.drop inner.length with
    | _ :: r => some (inner, r)
    | [] => none

/-- re.sub of the inline-code pattern: a backquote pair with non-empty
    backquote-free content keeps only the content. -/
def tickGo : Nat → Str → Str
  | 0, s => s
  | _+1, [] => []
  | fuel+1, c :: rest =>
    if c == btick then
      match findTick rest with
      | some p => p.1 ++ tickGo fuel p.2
      | none => c :: tickGo fuel rest
    else c :: tickGo fuel rest

/-- re.sub(\n{3,}, "\n\n"): collapse runs of three or more newlines to two. -/
def collapseGo : Nat → Str → Str
  | 0, s => s
  | _+1, [] => []
  | fuel+1, c :: rest =>
    if c == '\n' then
      let ns := rest.takeWhile (· == '\n')
      (if 3 ≤ ns.length + 1 then ['\n', '\n'] else List.replicate (ns.length + 1) '\n') ++
        collapseGo fuel (rest.drop ns.length)
    else c :: collapseGo fuel rest

/-- clean_text: the four substitutions in source order, then a final strip. -/
def cleanText (plainText : Str) : Str :=
  let t1 := cleanHashes plainText
  let t2 := boldGo (t1.length + 1) t1
  let t3 := tickGo (t2.length + 1) t2
  let t4 := collapseGo (t3.length + 1) t3
  pyStrip t4

/- ===== build_html_report ===== -/

/-- The document shell from the start up to the generation timestamp. -/
def tplHead : Str :=
  "\n<!DOCTYPE html>\n<html lang=\"ru\">\n<head>\n  <meta charset=\"UTF-8\" />\n  <meta name=\"viewport\" content=\"width=device-width, initial-scale=1\" />\n  <title>Аналитический отчёт</title>\n  <style>\n    :root \x7b\n      --bg: #f5f7fb;\n      --panel: #0f172a;\n      --panel-2: #111827;\n      --card: #ffffff;\n      --text: #0f172a;\n      --muted: #475569;\n      --accent: #2563eb;\n      --accent-2: #38bdf8;\n      --border: #e5e7eb;\n      --shadow: 0 10px 25px rgba(2,6,23,0.08);\n      --radius: 14px;\n    \x7d\n\n    * \x7b box-sizing: border-box; \x7d\n    html \x7b scroll-behavior: smooth; \x7d\n    body \x7b\n      margin: 0;\n      font-family: -apple-system, BlinkMacSystemFont, \"Segoe UI\", Roboto, Inter, Arial, \"Noto Sans\", \"Apple Color Emoji\",\"Segoe UI Emoji\";\n      background: var(--bg);\n      color: var(--text);\n      display: grid;\n      grid-template-columns: 300px 1fr;\n      min-height: 100vh;\n    \x7d\n\n    aside \x7b\n      position: sticky;\n      top: 0;\n      height: 100vh;\n      padding: 22px 20px;\n      background: linear-gradient(180deg, var(--panel), var(--panel-2));\n      color: #e5e7eb;\n      box-shadow: inset 0 -1px 0 rgba(255,255,255,0.05);\n      overflow-y: auto;\n    \x7d\n    .brand \x7b display: flex; align-items: center; gap: 12px; margin-bottom: 18px; \x7d\n    .brand .dot \x7b width: 12px; height: 12px; border-radius: 50%; background: radial-gradient(circle at 30% 30%, var(--accent-2), var(--accent)); box-shadow: 0 0 12px rgba(56,189,248,.8); \x7d\n    .brand h1 \x7b font-size: 18px; margin: 0; color: #fff; letter-spacing: .2px; \x7d\n    .meta \x7b font-size: 12px; color: #9ca3af; margin-bottom: 16px; \x7d\n    .toc \x7b list-style: none; margin: 0; padding-left: 0; \x7d\n    .toc > li \x7b margin: 6px 0; \x7d\n    .toc a \x7b display: block; padding: 9px 12px; text-decoration: none; color: #cbd5e1; border-radius: 10px; line-height: 1.2; transition: background .2s, color .2s, transform .05s; border: 1px solid rgba(255,255,255,0.06); \x7d\n    .toc a:hover \x7b background: rgba(255,255,255,0.06); color: #fff; \x7d\n    .toc a.active \x7b background: rgba(56,189,248,0.15); color: #e6f9ff; border-color: rgba(56,189,248,0.35); box-shadow: 0 0 0 2px rgba(56,189,248,0.18) inset; \x7d\n    .toc ul \x7b margin-left: 10px; padding-left: 12px; border-left: 1px dashed rgba(255,255,255,0.12); \x7d\n\n    .topbar \x7b display: none; grid-column: 1 / -1; padding: 12px 16px; background: var(--panel); color: #fff; align-items: center; gap: 10px; \x7d\n    .burger \x7b display: inline-flex; width: 40px; height: 36px; align-items:center; justify-content:center; border: 1px solid rgba(255,255,255,0.15); border-radius: 10px; background: transparent; color:#fff; \x7d\n\n    main \x7b padding: 28px 34px; \x7d\n    .container \x7b max-width: 1100px; margin: 0 auto; \x7d\n\n    .header \x7b display: flex; align-items: baseline; justify-content: space-between; flex-wrap: wrap; gap: 10px; margin-bottom: 18px; \x7d\n    .header .title \x7b font-size: 28px; margin: 0; letter-spacing: .2px; \x7d\n    .header .subtitle \x7b color: var(--muted); font-size: 14px; \x7d\n\n    .card \x7b background: var(--card); border: 1px solid var(--border); border-radius: var(--radius); padding: 22px 22px; margin: 18px 0 22px; box-shadow: var(--shadow); \x7d\n    .card h2 \x7b margin: 0 0 12px 0; font-size: 20px; padding-left: 12px; border-left: 4px solid var(--accent-2); \x7d\n    .level-2 h2 \x7b border-left-color: #60a5fa; \x7d\n    .level-3 h2 \x7b border-left-color: #a78bfa; \x7d\n    .level-4 h2 \x7b border-left-color: #f59e0b; \x7d\n\n    p \x7b line-height: 1.7; margin: 10px 0; color: #111827; \x7d\n    .spacer \x7b height: 6px; \x7d\n    .callout \x7b margin: 12px 0; padding: 12px 14px; border-radius: 12px; background: #eff6ff; border: 1px solid #bfdbfe; color: #1e3a8a; \x7d\n\n    ul, ol \x7b padding-left: 18px; \x7d\n    li \x7b margin: 6px 0; \x7d\n\n    .table-wrap \x7b overflow: auto; border-radius: 10px; border: 1px solid var(--border); \x7d\n    table \x7b border-collapse: collapse; min-width: 540px; width: 100%; background: #fff; \x7d\n    thead tr \x7b background: #f8fafc; \x7d\n    th, td \x7b border-bottom: 1px solid var(--border); padding: 10px 12px; text-align: left; font-size: 14px; \x7d\n    tbody tr:nth-child(odd) \x7b background: #fcfdff; \x7d\n\n    pre \x7b background: #0b1220; color: #e5e7eb; padding: 14px; border-radius: 12px; overflow: auto; \x7d\n    code \x7b font-family: ui-monospace, SFMono-Regular, Menlo, Monaco, Consolas, \"Liberation Mono\", \"Courier New\", monospace; font-size: 13px; \x7d\n\n    .to-top \x7b position: fixed; right: 22px; bottom: 22px; z-index: 50; background: var(--panel); color: #fff; border: none; border-radius: 12px; padding: 10px 12px; box-shadow: var(--shadow); opacity: .9; display: none; \x7d\n    .to-top.show \x7b display: inline-flex; \x7d\n\n    @media (max-width: 1024px) \x7b\n      body \x7b grid-template-columns: 1fr; \x7d\n      aside \x7b display: none; \x7d\n      .topbar \x7b display: flex; \x7d\n    \x7d\n  </style>\n</head>\n<body>\n\n  <div class=\"topbar\">\n    <button class=\"burger\" id=\"openToc\" aria-label=\"Открыть оглавление\">☰</button>\n    <div style=\"font-weight:600\">Аналитический отчёт</div>\n  </div>\n\n  <aside id=\"sidebar\">\n    <div class=\"brand\">\n      <div class=\"dot\"></div>\n      <h1>Навигация</h1>\n    </div>\n    <div class=\"meta\">Сгенерировано: ".data

/-- The shell between the timestamp and the navigation markup. -/
def tplAfterDate : Str :=
  "</div>\n    ".data

/-- The shell between the navigation and the joined section containers. -/
def tplAfterNav : Str :=
  "\n  </aside>\n\n  <main>\n    <div class=\"container\">\n      <div class=\"header\">\n        <h2 class=\"title\">Аналитический отчёт</h2>\n        <div class=\"subtitle\">Автоматический разбор PDF и новостного поиска</div>\n      </div>\n\n      ".data

/-- The shell after the section containers to the end of the document. -/
def tplTail : Str :=
  "\n    </div>\n  </main>\n\n  <button class=\"to-top\" id=\"toTop\" title=\"Наверх\">▲</button>\n\n  <script>\n    const links = Array.from(document.querySelectorAll('aside .toc a'));\n    const sections = links.map(a => document.getElementById(a.dataset.target));\n    const obs = new IntersectionObserver((entries) => \x7b\n      entries.forEach(e => \x7b\n        if (e.isIntersecting) \x7b\n          links.forEach(l => l.classList.toggle('active', l.dataset.target === e.target.id));\n        \x7d\n      \x7d);\n    \x7d, \x7b rootMargin: \"-40% 0px -50% 0px\", threshold: [0, 1] \x7d);\n    sections.forEach(s => s && obs.observe(s));\n\n    const toTop = document.getElementById('toTop');\n    window.addEventListener('scroll', () => \x7b\n      if (window.scrollY > 400) toTop.classList.add('show');\n      else toTop.classList.remove('show');\n    \x7d);\n    toTop.addEventListener('click', () => window.scrollTo(\x7b top: 0, behavior: 'smooth' \x7d));\n\n    const sidebar = document.getElementById('sidebar');\n    const openToc = document.getElementById('openToc');\n    openToc && openToc.addEventListener('click', () => \x7b\n      if (getComputedStyle(sidebar).display === 'none') \x7b\n        sidebar.style.display = 'block';\n        sidebar.style.position = 'fixed';\n        sidebar.style.zIndex = 60;\n        sidebar.style.width = 'min(88vw, 340px)';\n        sidebar.style.boxShadow = '0 20px 50px rgba(0,0,0,0.35)';\n      \x7d else \x7b\n        sidebar.style.display = 'none';\n      \x7d\n    \x7d);\n    document.querySelectorAll('#sidebar a').forEach(a => a.addEventListener('click', () => \x7b\n      if (window.innerWidth <= 1024) sidebar.style.display = 'none';\n    \x7d));\n  </script>\n\n</body>\n</html>\n".data

/-- Decimal rendering of the level, as the f-string interpolation does. -/
def natStr (n : Nat) : Str := Nat.toDigits 10 n

/-- The per-section container of build_html_report (note: the class uses the
    raw section level, with no clamping). -/
def sectionBlock (sec : ReportSection) : Str :=
  "<section id='".data ++ sec.id ++ "' class='card level-".data ++ natStr sec.level ++
  "'><h2>".data ++ htmlEscape sec.title ++ "</h2>".data ++ sec.blocks.flatten ++
  "</section>".data

/-- build_html_report.  The generation timestamp (datetime.now at line 392)
    is an input of the computation and is passed in as genDate. -/
def buildHtmlReport (slug : Str → Str) (genDate : Str) (plainText : Str) : Str :=
  let text := cleanText plainText
  let sections := parseToSections slug text
  let contentBlocks := sections.map sectionBlock
  let navHtml := buildNav sections
  tplHead ++ genDate ++ tplAfterDate ++ navHtml ++ tplAfterNav ++
    contentBlocks.flatten ++ tplTail

/- ===== Shared helpers for the claim theorems ===== -/

/-- A concrete slug function for evaluating the parser on sample inputs
    (no claim in scope depends on the slug values). -/
def slugNull : Str → Str := fun _ => []

/-- A whitespace character is not a digit. -/
theorem isPySpace_not_digit {c : Char} (h : isPySpace c = true) : c.isDigit = false := by
  unfold isPySpace at h
  simp only [Bool.or_eq_true, beq_iff_eq] at h
  rcases h with ((((h | h) | h) | h) | h) | h <;> subst h <;> decide

/-- Every line matched by the ordered-list regex is also matched by the
    numeric-heading regex: the heading rule runs first, so the ordered-list
    branch of the loop is unreachable. -/
theorem olItem_isSome_headingNum (line : Str) (h : (olItem line).isSome) :
    (headingNum line).isSome := by
  unfold olItem at h
  unfold headingNum
  by_cases hds : ((lstrip line).takeWhile Char.isDigit).isEmpty
  · simp [hds] at h
  · simp only [hds, Bool.false_eq_true, if_false] at h ⊢
    split at h
    next rest heq =>
      split at h
      next hcond =>
        have hsn : lstrip line ≠ [] := by
          intro h0; rw [h0] at hds; simp at hds
        have hrw : rest.takeWhile Char.isDigit = [] := by
          cases rest with
          | nil => rfl
          | cons c r =>
            have hsp : isPySpace c = true := by
              have hc2 := hcond
              simp only [Bool.and_eq_true] at hc2
              exact hc2.1
            simp [List.takeWhile, isPySpace_not_digit hsp]
        cases hlen : (lstrip line).length with
        | zero => exact absurd (List.length_eq_zero.mp hlen) hsn
        | succ k =>
          rw [heq]
          simp only [dottedTail, hrw, List.isEmpty_nil, if_true]
          simp [hcond]
      next => simp at h
    next => simp at h

/- ===== Claim C2 ===== -/

/-- Claim C2 counterexample: on the input lines "- a", "- b", "1. c" the
    builder never opens an ordered list — no "<ol>" block appears anywhere —
    because "1. c" is taken by the numeric-heading rule, which starts a new
    section titled "1 c" instead. -/
theorem C2_counterexample :
    ((parseToSections slugNull "- a\n- b\n1. c".data).map ReportSection.blocks).flatten.count
        "<ol>".data = 0 ∧
    (parseToSections slugNull "- a\n- b\n1. c".data).map ReportSection.title =
      [defaultTitle, "1 c".data] := by
  decide

/-- Claim C2 amended: consecutive "- a", "- b" produce one ul wrapper with
    exactly two li entries, and the following "1. c" closes that ul; but
    "1. c" is classified as a numeric heading (every ordered-list line also
    matches the numeric-heading regex, which runs first), so it starts a new
    level-1 section titled "1 c" and no ol is opened. -/
theorem C2_amended :
    (∀ line : Str, (olItem line).isSome → (headingNum line).isSome) ∧
    (∀ slug : Str → Str,
      (parseToSections slug "- a\n- b\n1. c".data).map ReportSection.blocks =
        [["<ul>".data, "<li>a</li>".data, "<li>b</li>".data, "</ul>".data], []] ∧
      (parseToSections slug "- a\n- b\n1. c".data).map ReportSection.title =
        [defaultTitle, "1 c".data] ∧
      (parseToSections slug "- a\n- b\n1. c".data).map ReportSection.level = [1, 1]) :=
  ⟨olItem_isSome_headingNum, fun _ => ⟨rfl, rfl, rfl⟩⟩

/-- Claim C2 witness: the amended theorem applied at the concrete line
    "1. c", discharging its hypothesis. -/
theorem C2_witness : (headingNum "1. c".data).isSome :=
  C2_amended.1 "1. c".data (by decide)

/- ===== Claim C3 ===== -/

/-- Claim C3 counterexample: the full pipeline (clean_text then the section
    builder) applied to "### Детали" produces no section of level 3 — the
    normalizer strips the heading hashes first. -/
theorem C3_counterexample :
    ¬ ∃ sec ∈ parseToSections slugNull (cleanText "### Детали".data),
        sec.level = 3 ∧ sec.title = "Детали".data := by
  decide

/-- Claim C3 amended: clean_text removes the leading "### " (leaving
    "Детали", which matches no heading rule), so the full pipeline yields
    exactly the implicit level-1 section "Аналитический отчёт" containing
    one paragraph block with the text "Детали". -/
theorem C3_amended :
    cleanText "### Детали".data = "Детали".data ∧
    ∀ slug : Str → Str,
      parseToSections slug (cleanText "### Детали".data) =
        [{ newSection slug defaultTitle 1 with blocks := ["<p>Детали</p>".data] }] :=
  ⟨rfl, fun _ => rfl⟩


/- ===== Claim C8 ===== -/

/-- Structure of one step of Python str.split: the accumulator holds the
    reversed current field; the next field runs to the first separator. -/
theorem pySplitCharGo_structure (sep : Char) :
    ∀ (s acc : Str),
      pySplitCharGo sep s acc =
        match s.dropWhile (fun c => !(c == sep)) with
        | [] => [acc.reverse ++ s]
        | _ :: rest =>
            (acc.reverse ++ s.takeWhile (fun c => !(c == sep))) :: pySplitCharGo sep rest []
  | [], acc => by simp [pySplitCharGo]
  | c :: r, acc => by
    by_cases hc : c == sep
    · simp only [pySplitCharGo, hc, if_true, List.dropWhile, List.takeWhile, Bool.not_true,
        Bool.false_eq_true, reduceIte]
      simp
    · have ih := pySplitCharGo_structure sep r (c :: acc)
      simp only [pySplitCharGo, hc, Bool.false_eq_true, if_false, List.dropWhile,
        List.takeWhile, Bool.not_false, reduceIte, ih]
      cases r.dropWhile (fun c => !(c == sep)) with
      | nil => simp
      | cons d rest => simp

/-- A Python split never returns an empty list of fields. -/
theorem pySplitCharGo_ne_nil (sep : Char) : ∀ (s acc : Str), pySplitCharGo sep s acc ≠ []
  | [], acc => by simp [pySplitCharGo]
  | c :: r, acc => by
    by_cases hc : c == sep
    · simp [pySplitCharGo, hc]
    · simpa [pySplitCharGo, hc] using pySplitCharGo_ne_nil sep r (c :: acc)

/-- Rejoining a Python split with its separator restores the string. -/
theorem pyJoin_pySplitChar (sep : Char) :
    ∀ (n : Nat) (s : Str), s.length ≤ n → pyJoin [sep] (pySplitChar sep s) = s := by
  intro n
  induction n with
  | zero =>
    intro s hs
    have h0 : s = [] := List.length_eq_zero.mp (Nat.le_zero.mp hs)
    subst h0
    simp [pySplitChar, pySplitCharGo, pyJoin]
  | succ n ih =>
    intro s hs
    rw [pySplitChar, pySplitCharGo_structure]
    cases hdw : s.dropWhile (fun c => !(c == sep)) with
    | nil =>
      dsimp only
      simp [pyJoin]
    | cons d rest =>
      dsimp only
      have hd : d = sep := by
        have hpos : 0 < (s.dropWhile (fun c => !(c == sep))).length := by
          rw [hdw]; simp
        have hget := List.dropWhile_get_zero_not (p := fun c => !(c == sep)) s hpos
        rw [List.get_of_eq hdw] at hget
        simpa using hget
      have hlen : rest.length ≤ n := by
        have h1 : (s.dropWhile (fun c => !(c == sep))).length ≤ s.length :=
          (List.dropWhile_suffix (fun c => !(c == sep))).length_le
        rw [hdw] at h1
        simp only [List.length_cons] at h1
        omega
      have hjoin : pyJoin [sep] (pySplitCharGo sep rest []) = rest := by
        have hr := ih rest hlen
        rwa [pySplitChar] at hr
      have hsplit : s = s.takeWhile (fun c => !(c == sep)) ++ d :: rest := by
        conv_lhs => rw [← List.takeWhile_append_dropWhile (p := fun c => !(c == sep)) (l := s)]
        rw [hdw]
      cases hgo : pySplitCharGo sep rest [] with
      | nil => exact absurd hgo (pySplitCharGo_ne_nil sep rest [])
      | cons y ys =>
        rw [hgo] at hjoin
        simp only [pyJoin, hjoin, List.reverse_nil, List.nil_append]
        conv_rhs => rw [hsplit, hd]
        rw [List.append_assoc]
        rfl

/-- The first field of a Python split is the text before the first separator. -/
theorem pySplitChar_headD (sep : Char) (s : Str) :
    (pySplitChar sep s).headD [] = s.takeWhile (fun c => !(c == sep)) := by
  rw [pySplitChar, pySplitCharGo_structure]
  cases hdw : s.dropWhile (fun c => !(c == sep)) with
  | nil =>
    dsimp only
    simp only [List.headD_cons, List.reverse_nil, List.nil_append]
    exact (List.takeWhile_eq_self_iff.mpr (List.dropWhile_eq_nil_iff.mp hdw)).symm
  | cons d rest =>
    dsimp only
    simp

/-- Rejoining the later fields of a Python split with the separator yields
    the text after the first separator (empty when there is none). -/
theorem pyJoin_pySplitChar_tail (sep : Char) (s : Str) :
    pyJoin [sep] (pySplitChar sep s).tail = (s.dropWhile (fun c => !(c == sep))).tail := by
  rw [pySplitChar, pySplitCharGo_structure]
  cases hdw : s.dropWhile (fun c => !(c == sep)) with
  | nil =>
    dsimp only
    simp [pyJoin]
  | cons d rest =>
    dsimp only
    simp only [List.tail_cons]
    exact pyJoin_pySplitChar sep rest.length rest (Nat.le_refl _)

/-- Claim C8 counterexample: on the callout line "Важно - срочно" (delimiter
    "-", no colon anywhere) the emitted callout block carries the whole line
    as its label and an empty body — not the matched keyword "Важно" with
    body "срочно". -/
theorem C8_counterexample :
    calloutMatch "Важно - срочно".data = true ∧
    (parseToSections slugNull "Важно - срочно".data).map ReportSection.blocks =
      [["<div class='callout'><strong>Важно - срочно:</strong> </div>".data]] ∧
    "<div class='callout'><strong>Важно - срочно:</strong> </div>".data ≠
      "<div class='callout'><strong>Важно:</strong> срочно</div>".data := by
  refine ⟨by decide, rfl, by decide⟩

/-- Claim C8 amended: a line passing the callout test (and no higher-priority
    rule) is rendered as a callout whose label is the whole text before the
    first colon — the entire line when the delimiter is "-" or "–" and no
    colon occurs — and whose body is the text after the first colon, stripped
    (empty when there is no colon); label and body are HTML-escaped. -/
theorem C8_amended :
    (∀ line : Str,
      calloutBlock line =
        "<div class='callout'><strong>".data ++
          htmlEscape (line.takeWhile (fun c => !(c == ':'))) ++ ":</strong> ".data ++
          htmlEscape (pyStrip ((line.dropWhile (fun c => !(c == ':'))).tail)) ++
          "</div>".data) ∧
    (∀ (slug : Str → Str) (st : PState) (raw : Str),
      st.current.inCode = false →
      st.current.listType = none →
      st.current.tableRows = none →
      ("```".data).isPrefixOf (pyStrip (rstripCR raw)) = false →
      headingNum (rstripCR raw) = none →
      headingMd raw = none →
      tableRowMatch (rstripCR raw) = none →
      ulItem (rstripCR raw) = none →
      olItem (rstripCR raw) = none →
      calloutMatch (rstripCR raw) = true →
      processLine slug st raw =
        { st with current :=
            { st.current with
                blocks := st.current.blocks ++ [calloutBlock (rstripCR raw)] } }) := by
  constructor
  · intro line
    rw [calloutBlock, pySplitChar_headD, pyJoin_pySplitChar_tail]
  · intro slug st raw hcode hlist htr hfence hnum hmd hrow hul hol hco
    rw [processLine]
    simp only [hfence, Bool.false_eq_true, if_false, hcode, hnum, hmd, hrow, Option.isSome_none]
    simp only [listStage, hul, hol, hlist, htr, truthyTR, hco, Bool.false_eq_true,
      if_false, if_true]
    simp [hlist, htr, hcode]

/-- Claim C8 witness: the amended theorem applied to the line
    "Внимание – важное" in the initial state, discharging every hypothesis. -/
theorem C8_witness :
    processLine slugNull { sections := [], current := newSection slugNull defaultTitle 1 }
        "Внимание – важное".data =
      { sections := [],
        current := { newSection slugNull defaultTitle 1 with
                       blocks := [calloutBlock (rstripCR "Внимание – важное".data)] } } :=
  C8_amended.2 slugNull _ _ rfl rfl rfl (by decide) (by decide) (by decide) (by decide)
    (by decide) (by decide) (by decide)

/- ===== Claim C9 ===== -/

/-- The level clamping used by build_nav. -/
def clampLevel (n : Nat) : Nat := max 1 (min 6 n)

/-- Spec-side variant of the section container, following the claim's words:
    the CSS class encodes the section's level clamped to the range 1..6.
    It is compared against sectionBlock, which is what the code does. -/
def sectionBlockClamped (sec : ReportSection) : Str :=
  "<section id='".data ++ sec.id ++ "' class='card level-".data ++
  natStr (clampLevel sec.level) ++ "'><h2>".data ++ htmlEscape sec.title ++
  "</h2>".data ++ sec.blocks.flatten ++ "</section>".data

/-- Claim C9 counterexample: the numeric heading "1.1.1.1.1.1.1. Глубина"
    has seven dotted components, so its section has level 7 and the code
    emits the container class "level-7" — not the clamped "level-6". -/
theorem C9_counterexample :
    (parseToSections slugNull (cleanText "1.1.1.1.1.1.1. Глубина".data)).map
        ReportSection.level = [1, 7] ∧
    (parseToSections slugNull (cleanText "1.1.1.1.1.1.1. Глубина".data)).map sectionBlock =
      ["<section id='' class='card level-1'><h2>Аналитический отчёт</h2></section>".data,
       "<section id='' class='card level-7'><h2>1.1.1.1.1.1.1 Глубина</h2></section>".data] ∧
    (parseToSections slugNull (cleanText "1.1.1.1.1.1.1. Глубина".data)).map sectionBlock ≠
      (parseToSections slugNull (cleanText "1.1.1.1.1.1.1. Глубина".data)).map
        sectionBlockClamped := by
  refine ⟨rfl, rfl, by decide⟩

/-- Claim C9 amended: the assembled document contains, for every section in
    order, the container with the section's id, the HTML-escaped title and
    the concatenated blocks, but its CSS class encodes the RAW level; the
    clamped and the raw class agree exactly on levels already in 1..6. -/
theorem C9_amended :
    (∀ (slug : Str → Str) (genDate text : Str), ∃ pre post : Str,
      buildHtmlReport slug genDate text =
        pre ++ ((parseToSections slug (cleanText text)).map sectionBlock).flatten ++ post) ∧
    (∀ sec : ReportSection, 1 ≤ sec.level → sec.level ≤ 6 →
      sectionBlock sec = sectionBlockClamped sec) := by
  constructor
  · intro slug genDate text
    refine ⟨tplHead ++ genDate ++ tplAfterDate ++
      buildNav (parseToSections slug (cleanText text)) ++ tplAfterNav, tplTail, ?_⟩
    rw [buildHtmlReport]
  · intro sec h1 h6
    have hcl : clampLevel sec.level = sec.level := by
      simp only [clampLevel]
      omega
    simp only [sectionBlock, sectionBlockClamped, hcl]

/-- Claim C9 witness: the amended per-section statement applied to a concrete
    level-3 section, discharging both level bounds. -/
theorem C9_witness :
    sectionBlock (newSection slugNull "Раздел".data 3) =
      sectionBlockClamped (newSection slugNull "Раздел".data 3) :=
  C9_amended.2 (newSection slugNull "Раздел".data 3) (by decide) (by decide)

/- ===== Claim C10 ===== -/

/-- Claim C10 counterexample: build_html_report embeds the generation
    timestamp (datetime.now) in its output, so two invocations on the same
    input text at different times return different strings. -/
theorem C10_counterexample :
    buildHtmlReport slugNull "01.01.2024 00:00".data [] ≠
      buildHtmlReport slugNull "02.01.2024 00:00".data [] := by
  intro h
  rw [buildHtmlReport, buildHtmlReport] at h
  simp only [List.append_assoc] at h
  have h2 := List.append_cancel_left h
  have h3 := List.append_inj_left h2 (by decide)
  exact absurd h3 (by decide)

/-- Claim C10 amended: the renderer is deterministic up to the generation
    timestamp: for every slug function and input text there are fixed
    strings pre and post, depending only on the input, such that every
    invocation returns pre ++ timestamp ++ post.  (In the source the
    timestamp comes from datetime.now, and the slug of a title that
    normalizes to the empty slug comes from uuid4, so two invocations at
    different times differ exactly there.) -/
theorem C10_amended :
    ∀ (slug : Str → Str) (text : Str), ∃ pre post : Str, ∀ genDate : Str,
      buildHtmlReport slug genDate text = pre ++ genDate ++ post := by
  intro slug text
  refine ⟨tplHead,
    tplAfterDate ++ buildNav (parseToSections slug (cleanText text)) ++ tplAfterNav ++
      ((parseToSections slug (cleanText text)).map sectionBlock).flatten ++ tplTail,
    fun genDate => ?_⟩
  rw [buildHtmlReport]
  simp [List.append_assoc]

/- ===== Claim C4 ===== -/

/-- Rows enumerated from a positive index never get the header tag. -/
theorem filterMap_enumFrom_pos (rows : List Str) :
    ∀ i : Nat,
      (rows.enumFrom (i + 1)).filterMap
          (fun p => (tableRowMatch p.2).map fun g => mkTr (p.1 == 0) g) =
        rows.filterMap fun r => (tableRowMatch r).map fun g => mkTr false g := by
  induction rows with
  | nil => intro i; rfl
  | cons r rs ih =>
    intro i
    simp only [List.enumFrom, List.filterMap_cons]
    have hi : ((i + 1 : Nat) == 0) = false := by simp
    rw [hi]
    cases tableRowMatch r with
    | none => simpa using ih (i + 1)
    | some g => simpa using ih (i + 1)

/-- If no row matches the row regex, the enumerated filter is empty. -/
theorem filterMap_enumFrom_none (rows : List Str)
    (h : ∀ r ∈ rows, tableRowMatch r = none) :
    ∀ i : Nat,
      (rows.enumFrom i).filterMap
          (fun p => (tableRowMatch p.2).map fun g => mkTr (p.1 == 0) g) = [] := by
  induction rows with
  | nil => intro i; rfl
  | cons r rs ih =>
    intro i
    simp only [List.enumFrom, List.filterMap_cons, h r (by simp)]
    exact ih (fun r hr => h r (by simp [hr])) (i + 1)

/-- Claim C4: (a) a buffer of at least two rows whose second row matches the
    separator pattern renders as if the separator row were absent — it
    contributes no tr; (b) the remaining first row (when it matches) becomes
    the single th row, and every later matching row a td row; (c) the
    concrete three-line pipe table renders one header row and one body row;
    (d) a buffer with no valid rows renders as the empty string. -/
theorem C4_render_table :
    (∀ (r0 r1 : Str) (rest : List Str), tableSepMatch r1 = true →
      renderTable (r0 :: r1 :: rest) = assembleTable (trRows (r0 :: rest))) ∧
    (∀ (r0 : Str) (rest : List Str),
      trRows (r0 :: rest) =
        ((tableRowMatch r0).map fun g => mkTr true g).toList ++
          rest.filterMap fun r => (tableRowMatch r).map fun g => mkTr false g) ∧
    (renderTable ["| a | b |".data, "|---|---|".data, "| c | d |".data] =
      ("<div class='table-wrap'><table><thead><tr><th>a</th><th>b</th></tr></thead>" ++
       "<tbody><tr><td>c</td><td>d</td></tr></tbody></table></div>").data) ∧
    (∀ rows : List Str, (∀ r ∈ rows, tableRowMatch r = none) → renderTable rows = []) := by
  refine ⟨?_, ?_, by decide, ?_⟩
  · intro r0 r1 rest h
    simp [renderTable, h]
  · intro r0 rest
    rw [trRows]
    simp only [List.enum, List.enumFrom, List.filterMap_cons]
    rw [filterMap_enumFrom_pos rest 0]
    cases tableRowMatch r0 with
    | none => simp
    | some g => simp [mkTr]
  · intro rows h
    match rows with
    | [] => rfl
    | [r] =>
      show assembleTable (trRows [r]) = []
      rw [trRows]
      simp only [List.enum]
      rw [filterMap_enumFrom_none [r] h 0]
      rfl
    | r0 :: r1 :: rest =>
      rw [renderTable]
      have h02 : ∀ r ∈ r0 :: rest, tableRowMatch r = none := by
        intro r hr
        rcases List.mem_cons.mp hr with hr0 | hrr
        · exact h r (by simp [hr0])
        · exact h r (by simp [List.mem_cons.mpr (Or.inr (List.mem_cons.mpr (Or.inr hrr)))])
      by_cases hsep : tableSepMatch r1
      · rw [if_pos hsep, trRows]
        simp only [List.enum]
        rw [filterMap_enumFrom_none _ h02 0]
        rfl
      · rw [if_neg hsep, trRows]
        simp only [List.enum]
        rw [filterMap_enumFrom_none _ h 0]
        rfl

/-- Claim C4 witness: the separator-dropping clause at a concrete two-row
    buffer and the empty-render clause at a concrete invalid buffer. -/
theorem C4_witness :
    renderTable ["| a |".data, "|---|".data, "| b |".data] =
      assembleTable (trRows ["| a |".data, "| b |".data]) ∧
    renderTable ["нет таблицы".data] = [] :=
  ⟨C4_render_table.1 _ _ _ (by decide),
   C4_render_table.2.2.2 _ (by decide)⟩

/- ===== Claim C5 ===== -/

/-- A string strips to empty exactly when all its characters are whitespace. -/
theorem pyStrip_eq_nil_iff (s : Str) :
    pyStrip s = [] ↔ ∀ c ∈ s, isPySpace c = true := by
  rw [pyStrip, rstrip]
  constructor
  · intro h c hc
    have h1 : (lstrip s).reverse.dropWhile isPySpace = [] := by
      have h0 := congrArg List.reverse h
      simpa using h0
    have h3 : ∀ c ∈ lstrip s, isPySpace c = true := by
      intro c hc
      exact List.dropWhile_eq_nil_iff.mp h1 c (List.mem_reverse.mpr hc)
    have hsplit : c ∈ s.takeWhile isPySpace ++ s.dropWhile isPySpace := by
      rw [List.takeWhile_append_dropWhile]
      exact hc
    rcases List.mem_append.mp hsplit with h4 | h4
    · exact List.mem_takeWhile_imp h4
    · exact h3 c h4
  · intro h
    have h1 : lstrip s = [] := List.dropWhile_eq_nil_iff.mpr h
    rw [h1]
    rfl

/-- Every character of the CR-stripped line is a character of the raw line. -/
theorem mem_rstripCR (raw : Str) (c : Char) (hc : c ∈ rstripCR raw) : c ∈ raw := by
  rw [rstripCR] at hc
  have h1 : c ∈ raw.reverse.dropWhile (· == '\r') := List.mem_reverse.mp hc
  have h2 : c ∈ raw.reverse := (List.dropWhile_suffix _).sublist.subset h1
  exact List.mem_reverse.mp h2

/-- Claim C5: with an open table buffer, (a) a blank line flushes the buffer
    into the blocks and is consumed without emitting a spacer or anything
    else; (b) a non-blank line that is not a table row (and not a fence or a
    heading) flushes the buffer and is then itself reprocessed by the
    list/callout/paragraph stage. -/
theorem C5_table_termination :
    (∀ (slug : Str → Str) (st : PState) (raw : Str) (r : Str) (rs : List Str),
      st.current.inCode = false →
      st.current.tableRows = some (r :: rs) →
      pyStrip raw = [] →
      processLine slug st raw =
        { st with current :=
            { st.current with
                blocks := st.current.blocks ++ [renderTable (r :: rs)],
                tableRows := none } }) ∧
    (∀ (slug : Str → Str) (st : PState) (raw : Str) (r : Str) (rs : List Str),
      st.current.inCode = false →
      st.current.tableRows = some (r :: rs) →
      ("```".data).isPrefixOf (pyStrip (rstripCR raw)) = false →
      headingNum (rstripCR raw) = none →
      headingMd raw = none →
      tableRowMatch (rstripCR raw) = none →
      pyStrip (rstripCR raw) ≠ [] →
      processLine slug st raw =
        listStage
          { st with current :=
              { st.current with
                  blocks := st.current.blocks ++ [renderTable (r :: rs)],
                  tableRows := none } }
          (rstripCR raw)) := by
  constructor
  · intro slug st raw r rs hcode htr hblank
    have hall : ∀ c ∈ raw, isPySpace c = true := (pyStrip_eq_nil_iff raw).mp hblank
    have hallLine : ∀ c ∈ rstripCR raw, isPySpace c = true :=
      fun c hc => hall c (mem_rstripCR raw c hc)
    have hls : lstrip (rstripCR raw) = [] := List.dropWhile_eq_nil_iff.mpr hallLine
    have hlsr : lstrip raw = [] := List.dropWhile_eq_nil_iff.mpr hall
    have hps : pyStrip (rstripCR raw) = [] := by rw [pyStrip, hls]; rfl
    have hnum : headingNum (rstripCR raw) = none := by
      rw [headingNum, hls]
      rfl
    have hmd : headingMd raw = none := by
      rw [headingMd, hlsr]
      rfl
    have hrow : tableRowMatch (rstripCR raw) = none := by
      rw [tableRowMatch, hls]
    rw [processLine]
    simp only [hps, hcode, hnum, hmd, hrow, Option.isSome_none, Bool.false_eq_true, if_false,
      List.isPrefixOf, htr, truthyTR, Option.getD_some, List.isEmpty_nil, if_true]
  · intro slug st raw r rs hcode htr hfence hnum hmd hrow hnb
    rw [processLine]
    simp only [hfence, hcode, hnum, hmd, hrow, Option.isSome_none, Bool.false_eq_true, if_false,
      htr, truthyTR, Option.getD_some, if_true]
    rw [if_neg (by simpa [List.isEmpty_iff] using hnb)]

/-- Claim C5 witness: both termination clauses applied in a concrete state
    holding the open one-row buffer "| a |", once terminated by the blank
    line "  " and once by the plain line "после", discharging every
    hypothesis. -/
theorem C5_witness :
    (processLine slugNull
        { sections := [],
          current := { newSection slugNull defaultTitle 1 with tableRows := some ["| a |".data] } }
        "  ".data =
      { sections := [],
        current := { newSection slugNull defaultTitle 1 with
                       blocks := [renderTable ["| a |".data]], tableRows := none } }) ∧
    (processLine slugNull
        { sections := [],
          current := { newSection slugNull defaultTitle 1 with tableRows := some ["| a |".data] } }
        "после".data =
      listStage
        { sections := [],
          current := { newSection slugNull defaultTitle 1 with
                         blocks := [renderTable ["| a |".data]], tableRows := none } }
        (rstripCR "после".data)) :=
  ⟨C5_table_termination.1 slugNull _ _ _ _ rfl rfl (by decide),
   C5_table_termination.2 slugNull _ _ _ _ rfl rfl (by decide) (by decide) (by decide)
     (by decide) (by decide)⟩

/- ===== Claim C7 ===== -/

/-- Finalizing leaves the title untouched. -/
theorem closeOpenBlocks_title (sec : ReportSection) :
    (closeOpenBlocks sec).title = sec.title := by
  rw [closeOpenBlocks]
  repeat' split
  all_goals rfl

/-- Finalizing leaves the level untouched. -/
theorem closeOpenBlocks_level (sec : ReportSection) :
    (closeOpenBlocks sec).level = sec.level := by
  rw [closeOpenBlocks]
  repeat' split
  all_goals rfl

/-- Adding a paragraph leaves the title untouched. -/
theorem addParagraph_title (sec : ReportSection) (l : Str) :
    (addParagraph sec l).title = sec.title := by
  rw [addParagraph]
  split <;> rfl

/-- Adding a paragraph leaves the level untouched. -/
theorem addParagraph_level (sec : ReportSection) (l : Str) :
    (addParagraph sec l).level = sec.level := by
  rw [addParagraph]
  split <;> rfl

/-- The list/callout/paragraph stage appends no section and keeps the
    current section's title and level. -/
theorem listStage_spec (st : PState) (line : Str) :
    (listStage st line).sections = st.sections ∧
    (listStage st line).current.title = st.current.title ∧
    (listStage st line).current.level = st.current.level := by
  rw [listStage]
  repeat' split
  all_goals
    exact ⟨rfl, by simp [closeOpenBlocks_title, addParagraph_title],
      by simp [closeOpenBlocks_level, addParagraph_level]⟩

/-- Each loop step either keeps the section list (and the current title and
    level), or appends exactly the finalized current section. -/
theorem processLine_cases (slug : Str → Str) (st : PState) (raw : Str) :
    ((processLine slug st raw).sections = st.sections ∧
      (processLine slug st raw).current.title = st.current.title ∧
      (processLine slug st raw).current.level = st.current.level) ∨
    (processLine slug st raw).sections = st.sections ++ [closeOpenBlocks st.current] := by
  rw [processLine]
  split
  · split
    · exact Or.inl ⟨rfl, by simp [closeOpenBlocks_title], by simp [closeOpenBlocks_level]⟩
    · exact Or.inl ⟨rfl, rfl, rfl⟩
  · split
    · exact Or.inl ⟨rfl, rfl, rfl⟩
    · split
      · exact Or.inr rfl
      · split
        · exact Or.inr rfl
        · split
          · split
            · exact Or.inl ⟨rfl, by simp [closeOpenBlocks_title], by simp [closeOpenBlocks_level]⟩
            · exact Or.inl ⟨rfl, rfl, rfl⟩
          · split
            · split
              · exact Or.inl ⟨rfl, rfl, rfl⟩
              · exact Or.inl (listStage_spec _ _)
            · exact Or.inl (listStage_spec _ _)

/-- Folding the loop only ever appends to the finished-section list. -/
theorem foldl_sections_extend (slug : Str → Str) (lines : List Str) :
    ∀ st : PState, ∃ ext,
      (lines.foldl (processLine slug) st).sections = st.sections ++ ext := by
  induction lines with
  | nil => intro st; exact ⟨[], by simp⟩
  | cons l ls ih =>
    intro st
    rw [List.foldl_cons]
    obtain ⟨ext, hext⟩ := ih (processLine slug st l)
    rcases processLine_cases slug st l with ⟨hs, -, -⟩ | hs
    · exact ⟨ext, by rw [hext, hs]⟩
    · exact ⟨closeOpenBlocks st.current :: ext, by rw [hext, hs]; simp⟩

/-- The title and level of the first section (finished or current) never
    change while the loop runs. -/
theorem foldl_head_preserved (slug : Str → Str) (lines : List Str) :
    ∀ st : PState,
      (((lines.foldl (processLine slug) st).sections ++
          [(lines.foldl (processLine slug) st).current]).head?.map
        fun sec => (sec.title, sec.level)) =
      ((st.sections ++ [st.current]).head?.map fun sec => (sec.title, sec.level)) := by
  induction lines with
  | nil => intro st; rfl
  | cons l ls ih =>
    intro st
    rw [List.foldl_cons, ih (processLine slug st l)]
    rcases processLine_cases slug st l with ⟨hs, ht, hl⟩ | hs
    · rw [hs]
      cases st.sections with
      | nil => simp [ht, hl]
      | cons a rest => simp
    · rw [hs]
      cases st.sections with
      | nil => simp [closeOpenBlocks_title, closeOpenBlocks_level]
      | cons a rest => simp

/-- A digit character is not whitespace. -/
theorem digit_not_space {d : Char} (h : d.isDigit = true) : isPySpace d = false := by
  cases hps : isPySpace d
  · rfl
  · exact absurd h (by simp [isPySpace_not_digit hps])

/-- A digit character is not the backquote. -/
theorem digit_ne_btick {d : Char} (h : d.isDigit = true) : d ≠ btick := by
  intro he
  subst he
  exact absurd h (by decide)

/-- Stripping from the right keeps a non-whitespace head. -/
theorem rstrip_cons_not_space {d : Char} (hd : isPySpace d = false) (xs : Str) :
    rstrip (d :: xs) = d :: rstrip xs := by
  rw [rstrip, rstrip, List.reverse_cons, List.dropWhile_append]
  by_cases he : (xs.reverse.dropWhile isPySpace).isEmpty
  · rw [if_pos he]
    have hxs : xs.reverse.dropWhile isPySpace = [] := List.isEmpty_iff.mp he
    rw [hxs]
    simp [List.dropWhile_cons, hd]
  · rw [if_neg he]
    simp

/-- A line whose numeric-heading match succeeds starts (after whitespace)
    with a digit. -/
theorem headingNum_head_digit (line : Str) (h : (headingNum line).isSome) :
    ∃ d t, lstrip line = d :: t ∧ d.isDigit = true := by
  rw [headingNum] at h
  by_cases hds : ((lstrip line).takeWhile Char.isDigit).isEmpty
  · simp [hds] at h
  · cases hls : lstrip line with
    | nil => rw [hls] at hds; simp at hds
    | cons d t =>
      refine ⟨d, t, rfl, ?_⟩
      rw [hls, List.takeWhile_cons] at hds
      by_cases hdd : d.isDigit
      · exact hdd
      · simp [hdd] at hds

/-- A line whose markdown-heading match succeeds starts (after whitespace)
    with a hash. -/
theorem headingMd_head_hash (line : Str) (h : (headingMd line).isSome) :
    ∃ t, lstrip line = '#' :: t := by
  rw [headingMd] at h
  cases hls : lstrip line with
  | nil => rw [hls] at h; simp at h
  | cons d t =>
    rw [hls] at h
    by_cases hd : d = '#'
    · exact ⟨t, by rw [hd]⟩
    · rw [List.takeWhile_cons] at h
      have hbe : (d == '#') = false := by simp [hd]
      rw [hbe] at h
      simp at h

/-- A line whose first non-whitespace character is neither whitespace nor the
    backquote cannot satisfy the code-fence test. -/
theorem fence_false_of_head (line : Str) (d : Char) (t : Str)
    (hls : lstrip line = d :: t) (hdws : isPySpace d = false) (hne : d ≠ btick) :
    ("```".data).isPrefixOf (pyStrip line) = false := by
  have hstrip : pyStrip line = d :: rstrip t := by
    rw [pyStrip, hls, rstrip_cons_not_space hdws]
  have h96 : "```".data = btick :: btick :: btick :: [] := rfl
  have hbd : (btick == d) = false := by
    simp only [beq_eq_false_iff_ne, ne_eq]
    exact fun hx => hne (hx ▸ rfl)
  rw [hstrip, h96]
  show (btick == d && (btick :: btick :: []).isPrefixOf (rstrip t)) = false
  rw [hbd]
  rfl

/-- Splitting the trailing carriage returns off a raw line. -/
theorem rstripCR_decomp (raw : Str) :
    ∃ T, raw = rstripCR raw ++ T ∧ ∀ c ∈ T, c = '\r' := by
  refine ⟨(raw.reverse.takeWhile (· == '\r')).reverse, ?_, ?_⟩
  · rw [rstripCR]
    conv_lhs => rw [← List.reverse_reverse raw]
    rw [← List.reverse_append, List.takeWhile_append_dropWhile]
  · intro c hc
    have := List.mem_takeWhile_imp (List.mem_reverse.mp hc)
    simpa using this

/-- A hash head at the raw line survives the CR-strip. -/
theorem lstrip_rstripCR_hash (raw : Str) (t : Str) (h : lstrip raw = '#' :: t) :
    ∃ t2, lstrip (rstripCR raw) = '#' :: t2 := by
  obtain ⟨T, hT, hTc⟩ := rstripCR_decomp raw
  rw [lstrip] at h
  conv at h => lhs; rw [hT]
  rw [List.dropWhile_append] at h
  by_cases he : ((rstripCR raw).dropWhile isPySpace).isEmpty
  · rw [if_pos he] at h
    have hTnil : T.dropWhile isPySpace = [] :=
      List.dropWhile_eq_nil_iff.mpr (fun c hc => by rw [hTc c hc]; rfl)
    rw [hTnil] at h
    exact absurd h (by simp)
  · rw [if_neg he] at h
    cases hdw : (rstripCR raw).dropWhile isPySpace with
    | nil => rw [hdw] at he; simp at he
    | cons x xs =>
      rw [hdw] at h
      have hx : x = '#' := by
        injection h with h1 h2
      exact ⟨xs, by rw [lstrip, hdw, hx]⟩

/-- Finalizing a freshly created section is the identity. -/
theorem closeOpenBlocks_newSection (slug : Str → Str) (ttl : Str) (lvl : Nat) :
    closeOpenBlocks (newSection slug ttl lvl) = newSection slug ttl lvl := rfl

/-- A heading line (numeric, or markdown when numeric fails) finalizes and
    appends the current section. -/
theorem processLine_heading_sections (slug : Str → Str) (st : PState) (raw : Str)
    (hcode : st.current.inCode = false)
    (hfence : ("```".data).isPrefixOf (pyStrip (rstripCR raw)) = false)
    (hhead : (headingNum (rstripCR raw)).isSome ∨
      (headingNum (rstripCR raw) = none ∧ (headingMd raw).isSome)) :
    (processLine slug st raw).sections = st.sections ++ [closeOpenBlocks st.current] := by
  rw [processLine]
  rcases hhead with hn | ⟨hn, hm⟩
  · obtain ⟨p, hp⟩ := Option.isSome_iff_exists.mp hn
    simp only [hfence, Bool.false_eq_true, if_false, hcode, hp]
    rfl
  · obtain ⟨p, hp⟩ := Option.isSome_iff_exists.mp hm
    simp only [hfence, Bool.false_eq_true, if_false, hcode, hn, hp]
    rfl

/-- The default title carries no surrounding whitespace. -/
theorem pyStrip_defaultTitle : pyStrip defaultTitle = defaultTitle := by decide

/-- Claim C7: the section list always starts with the implicit section
    "Аналитический отчёт" of level 1; when the input starts with a heading
    line the implicit section is emitted pristine, with no blocks; the empty
    input yields exactly the implicit section, and its navigation carries
    exactly the one corresponding entry. -/
theorem C7_implicit_section :
    (∀ (slug : Str → Str) (text : Str), ∃ s0 rest,
      parseToSections slug text = s0 :: rest ∧
      s0.title = defaultTitle ∧ s0.level = 1) ∧
    (∀ (slug : Str → Str) (text l : Str) (ls : List Str),
      splitlines text = l :: ls →
      ((headingNum (rstripCR l)).isSome ∨ (headingMd l).isSome) →
      ∃ rest, parseToSections slug text = newSection slug defaultTitle 1 :: rest ∧
        (newSection slug defaultTitle 1).blocks = []) ∧
    (∀ slug : Str → Str, parseToSections slug [] = [newSection slug defaultTitle 1]) ∧
    (∀ slug : Str → Str,
      buildNavList (parseToSections slug []) =
        [tocOpen, mkLink (newSection slug defaultTitle 1), tocClose]) := by
  refine ⟨?_, ?_, fun _ => rfl, fun _ => rfl⟩
  · intro slug text
    have hhead := foldl_head_preserved slug (splitlines text)
        { sections := [], current := newSection slug defaultTitle 1 }
    have hres : parseToSections slug text =
        ((splitlines text).foldl (processLine slug)
            { sections := [], current := newSection slug defaultTitle 1 }).sections ++
          [closeOpenBlocks ((splitlines text).foldl (processLine slug)
            { sections := [], current := newSection slug defaultTitle 1 }).current] := rfl
    generalize hst : (splitlines text).foldl (processLine slug)
        { sections := [], current := newSection slug defaultTitle 1 } = st' at hhead hres
    cases hsec : st'.sections with
    | nil =>
      rw [hsec] at hhead hres
      simp only [List.nil_append, List.head?_cons, Option.map_some'] at hhead
      have h1 : st'.current.title = pyStrip defaultTitle ∧ st'.current.level = 1 := by
        simpa [newSection, Prod.ext_iff] using hhead
      refine ⟨closeOpenBlocks st'.current, [], by rw [hres]; simp, ?_, ?_⟩
      · rw [closeOpenBlocks_title, h1.1, pyStrip_defaultTitle]
      · rw [closeOpenBlocks_level, h1.2]
    | cons a rest =>
      rw [hsec] at hhead hres
      simp only [List.cons_append, List.head?_cons, Option.map_some'] at hhead
      have h1 : a.title = pyStrip defaultTitle ∧ a.level = 1 := by
        simpa [newSection, Prod.ext_iff] using hhead
      refine ⟨a, rest ++ [closeOpenBlocks st'.current], by rw [hres]; simp, ?_, ?_⟩
      · rw [h1.1, pyStrip_defaultTitle]
      · exact h1.2
  · intro slug text l ls hsplit hhead
    have hfence : ("```".data).isPrefixOf (pyStrip (rstripCR l)) = false := by
      rcases hhead with hn | hm
      · obtain ⟨d, t, hls, hd⟩ := headingNum_head_digit (rstripCR l) hn
        exact fence_false_of_head _ d t hls (digit_not_space hd) (digit_ne_btick hd)
      · obtain ⟨t, hls⟩ := headingMd_head_hash l hm
        obtain ⟨t2, hls2⟩ := lstrip_rstripCR_hash l t hls
        exact fence_false_of_head _ '#' t2 hls2 (by decide) (by decide)
    have hhead2 : (headingNum (rstripCR l)).isSome ∨
        (headingNum (rstripCR l) = none ∧ (headingMd l).isSome) := by
      rcases hhead with hn | hm
      · exact Or.inl hn
      · cases hn : headingNum (rstripCR l) with
        | some p => exact Or.inl rfl
        | none => exact Or.inr ⟨rfl, hm⟩
    set st0 : PState := { sections := [], current := newSection slug defaultTitle 1 } with hst0
    set st1 : PState := processLine slug st0 l with hst1
    have h1 : st1.sections = [newSection slug defaultTitle 1] := by
      rw [hst1, processLine_heading_sections slug st0 l rfl hfence hhead2, hst0,
        closeOpenBlocks_newSection]
      rfl
    obtain ⟨ext, hext⟩ := foldl_sections_extend slug ls st1
    have hres : parseToSections slug text =
        (ls.foldl (processLine slug) st1).sections ++
          [closeOpenBlocks (ls.foldl (processLine slug) st1).current] := by
      rw [parseToSections, hsplit]
      rfl
    refine ⟨ext ++ [closeOpenBlocks (ls.foldl (processLine slug) st1).current], ?_, rfl⟩
    rw [hres, hext, h1]
    simp

/-- Claim C7 witness: the heading-first clause applied to a concrete input
    whose first line is the numeric heading "1. Введение". -/
theorem C7_witness :
    ∃ rest, parseToSections slugNull "1. Введение\nтекст".data =
      newSection slugNull defaultTitle 1 :: rest ∧
      (newSection slugNull defaultTitle 1).blocks = [] :=
  C7_implicit_section.2.1 slugNull "1. Введение\nтекст".data "1. Введение".data
    ["текст".data] (by decide) (Or.inl (by decide))

/- ===== Claim C1 ===== -/

/-- The flushed code block of close_open_blocks (empty when no code block is
    open). -/
def codeFlushPart (sec : ReportSection) : List Str :=
  if sec.inCode then [codeHtml sec.codeBuf] else []

/-- The list-closing wrapper appended by close_open_blocks. -/
def listClosePart (sec : ReportSection) : List Str :=
  match sec.listType with
  | some ListKind.ul => ["</ul>".data]
  | some ListKind.ol => ["</ol>".data]
  | none => []

/-- The flushed table of close_open_blocks (empty unless the buffer is
    non-empty). -/
def tableFlushPart (sec : ReportSection) : List Str :=
  match sec.tableRows with
  | some (r :: rs) => [renderTable (r :: rs)]
  | _ => []

/-- Lists disagreeing in their second element are different. -/
theorem cons2_ne {c1 c2 d1 d2 : Char} {xs ys : Str} (h : c2 ≠ d2) :
    (c1 :: c2 :: xs) ≠ (d1 :: d2 :: ys) := by
  intro he
  injection he with he1 he2
  injection he2 with he3 he4
  exact h he3

/-- A block that is none of the four list-wrapper tokens. -/
def neutralBlock (b : Str) : Prop :=
  b ≠ "<ul>".data ∧ b ≠ "</ul>".data ∧ b ≠ "<ol>".data ∧ b ≠ "</ol>".data

/-- Any block starting with an angle bracket and a character other than
    'u', '/', 'o' is neutral. -/
theorem neutral_of_shape (c : Char) (z : Str) (h1 : c ≠ 'u') (h2 : c ≠ '/') (h3 : c ≠ 'o') :
    neutralBlock ('<' :: c :: z) :=
  ⟨cons2_ne h1, cons2_ne h2, cons2_ne h3, cons2_ne h2⟩

/-- The empty string is neutral. -/
theorem neutral_nil : neutralBlock [] := by
  refine ⟨?_, ?_, ?_, ?_⟩ <;> decide

/-- Code blocks are neutral. -/
theorem neutral_codeHtml (buf : List Str) : neutralBlock (codeHtml buf) :=
  neutral_of_shape 'p' _ (by decide) (by decide) (by decide)

/-- List items are neutral. -/
theorem neutral_li (content : Str) :
    neutralBlock ("<li>".data ++ htmlEscape content ++ "</li>".data) :=
  neutral_of_shape 'l' _ (by decide) (by decide) (by decide)

/-- Callout blocks are neutral. -/
theorem neutral_callout (line : Str) : neutralBlock (calloutBlock line) :=
  neutral_of_shape 'd' _ (by decide) (by decide) (by decide)

/-- Paragraph blocks are neutral. -/
theorem neutral_paragraph (t : Str) :
    neutralBlock ("<p>".data ++ htmlEscape t ++ "</p>".data) :=
  neutral_of_shape 'p' _ (by decide) (by decide) (by decide)

/-- Spacer blocks are neutral. -/
theorem neutral_spacer : neutralBlock ("<div class='spacer'></div>".data) := by
  refine ⟨?_, ?_, ?_, ?_⟩ <;> decide

/-- Rendered tables are neutral. -/
theorem neutral_renderTable (rows : List Str) : neutralBlock (renderTable rows) := by
  have hshape : ∀ l : List Str, neutralBlock (assembleTable l) := by
    intro l
    cases l with
    | nil => exact neutral_nil
    | cons t ts => exact neutral_of_shape 'd' _ (by decide) (by decide) (by decide)
  rcases rows with _ | ⟨r0, _ | ⟨r1, rest⟩⟩
  · exact neutral_nil
  · exact hshape _
  · rw [renderTable]
    split
    · exact hshape _
    · exact hshape _

/-- Appending a single block that differs from the token leaves its count. -/
theorem count_snoc_ne (bs : List Str) (b tok : Str) (h : b ≠ tok) :
    (bs ++ [b]).count tok = bs.count tok := by
  rw [List.count_append, List.count_singleton]
  simp [beq_eq_false_iff_ne.mpr h]

/-- Appending the token itself increments its count. -/
theorem count_snoc_self (bs : List Str) (tok : Str) :
    (bs ++ [tok]).count tok = bs.count tok + 1 := by
  rw [List.count_append, List.count_singleton]
  simp

/-- The running invariant of the current section: a closed code buffer is
    empty, the table buffer is never the empty list, and the list-wrapper
    counts differ from their closers exactly by the open-list indicator. -/
def InvSec (sec : ReportSection) : Prop :=
  (sec.inCode = false → sec.codeBuf = []) ∧
  sec.tableRows ≠ some [] ∧
  sec.blocks.count "<ul>".data =
    sec.blocks.count "</ul>".data + (if sec.listType = some ListKind.ul then 1 else 0) ∧
  sec.blocks.count "<ol>".data =
    sec.blocks.count "</ol>".data + (if sec.listType = some ListKind.ol then 1 else 0)

/-- What the claim asserts of every finished section: no dangling open
    block of any kind and balanced list wrappers. -/
def ClosedSec (sec : ReportSection) : Prop :=
  sec.inCode = false ∧ sec.codeBuf = [] ∧ sec.listType = none ∧ sec.tableRows = none ∧
  sec.blocks.count "<ul>".data = sec.blocks.count "</ul>".data ∧
  sec.blocks.count "<ol>".data = sec.blocks.count "</ol>".data

/-- Appending a neutral block preserves the invariant. -/
theorem InvSec_snoc_neutral {sec : ReportSection} (h : InvSec sec) {b : Str}
    (hb : neutralBlock b) :
    InvSec { sec with blocks := sec.blocks ++ [b] } := by
  obtain ⟨h1, h2, h3, h4⟩ := h
  obtain ⟨n1, n2, n3, n4⟩ := hb
  exact ⟨h1, h2, by simp only [count_snoc_ne _ _ _ n1, count_snoc_ne _ _ _ n2]; exact h3,
    by simp only [count_snoc_ne _ _ _ n3, count_snoc_ne _ _ _ n4]; exact h4⟩

/-- A closed section satisfies the running invariant. -/
theorem ClosedSec.invSec {sec : ReportSection} (h : ClosedSec sec) : InvSec sec := by
  obtain ⟨h1, h2, h3, h4, h5, h6⟩ := h
  exact ⟨fun _ => h2, by rw [h4]; simp, by rw [h3]; simpa using h5, by rw [h3]; simpa using h6⟩

/-- The order lemma for close_open_blocks: the blocks it appends are exactly
    the code flush, then the list closer, then the table flush, in that
    order. -/
theorem closeOpenBlocks_order (sec : ReportSection) :
    (closeOpenBlocks sec).blocks =
      sec.blocks ++ codeFlushPart sec ++ listClosePart sec ++ tableFlushPart sec := by
  rcases sec with ⟨ttl, lvl, idv, blocks, lt, tr, ic, cb⟩
  cases ic <;> rcases lt with _ | (_ | _) <;> rcases tr with _ | (_ | ⟨r, rs⟩) <;>
    simp [closeOpenBlocks, codeFlushPart, listClosePart, tableFlushPart]

/-- The non-blocks fields after close_open_blocks. -/
theorem closeOpenBlocks_fields (sec : ReportSection) :
    (closeOpenBlocks sec).inCode = false ∧ (closeOpenBlocks sec).listType = none ∧
    ((sec.inCode = false → sec.codeBuf = []) → (closeOpenBlocks sec).codeBuf = []) ∧
    (sec.tableRows ≠ some [] → (closeOpenBlocks sec).tableRows = none) := by
  rcases sec with ⟨ttl, lvl, idv, blocks, lt, tr, ic, cb⟩
  cases ic <;> rcases lt with _ | (_ | _) <;> rcases tr with _ | (_ | ⟨r, rs⟩) <;>
    simp [closeOpenBlocks]

/-- Every block of the code flush is neutral. -/
theorem codeFlushPart_neutral (sec : ReportSection) :
    ∀ b ∈ codeFlushPart sec, neutralBlock b := by
  rw [codeFlushPart]
  split
  · intro b hb
    rw [List.mem_singleton] at hb
    subst hb
    exact neutral_codeHtml _
  · intro b hb
    simp at hb

/-- Every block of the table flush is neutral. -/
theorem tableFlushPart_neutral (sec : ReportSection) :
    ∀ b ∈ tableFlushPart sec, neutralBlock b := by
  rw [tableFlushPart]
  split
  · intro b hb
    rw [List.mem_singleton] at hb
    subst hb
    exact neutral_renderTable _
  · intro b hb
    simp at hb

/-- Appending blocks all different from the token keeps its count. -/
theorem count_append_all_ne (xs ys : List Str) (tok : Str) (h : ∀ b ∈ ys, b ≠ tok) :
    (xs ++ ys).count tok = xs.count tok := by
  rw [List.count_append]
  have h0 : ys.count tok = 0 := List.count_eq_zero.mpr (fun hmem => (h _ hmem) rfl)
  rw [h0, Nat.add_zero]

/-- Finalizing an invariant-respecting section yields a closed section. -/
theorem closeOpenBlocks_closed {sec : ReportSection} (h : InvSec sec) :
    ClosedSec (closeOpenBlocks sec) := by
  obtain ⟨h1, h2, h3, h4⟩ := h
  obtain ⟨f1, f2, f3, f4⟩ := closeOpenBlocks_fields sec
  have horder := closeOpenBlocks_order sec
  have hcN := codeFlushPart_neutral sec
  have htN := tableFlushPart_neutral sec
  refine ⟨f1, f3 h1, f2, f4 h2, ?_, ?_⟩ <;> rw [horder]
  · rw [count_append_all_ne _ _ _ (fun b hb => (htN b hb).1),
      count_append_all_ne _ _ _ (fun b hb => (htN b hb).2.1)]
    rcases hlt : sec.listType with _ | k
    · simp only [listClosePart, hlt, List.append_nil]
      rw [count_append_all_ne _ _ _ (fun b hb => (hcN b hb).1),
        count_append_all_ne _ _ _ (fun b hb => (hcN b hb).2.1)]
      rw [hlt] at h3
      simpa using h3
    · cases k
      · simp only [listClosePart, hlt]
        rw [count_snoc_ne _ _ _ (by decide), count_snoc_self]
        rw [count_append_all_ne _ _ _ (fun b hb => (hcN b hb).1),
          count_append_all_ne _ _ _ (fun b hb => (hcN b hb).2.1)]
        rw [hlt] at h3
        simp at h3 ⊢
        omega
      · simp only [listClosePart, hlt]
        rw [count_snoc_ne _ _ _ (by decide), count_snoc_ne _ _ _ (by decide)]
        rw [count_append_all_ne _ _ _ (fun b hb => (hcN b hb).1),
          count_append_all_ne _ _ _ (fun b hb => (hcN b hb).2.1)]
        rw [hlt] at h3
        simpa using h3
  · rw [count_append_all_ne _ _ _ (fun b hb => (htN b hb).2.2.1),
      count_append_all_ne _ _ _ (fun b hb => (htN b hb).2.2.2)]
    rcases hlt : sec.listType with _ | k
    · simp only [listClosePart, hlt, List.append_nil]
      rw [count_append_all_ne _ _ _ (fun b hb => (hcN b hb).2.2.1),
        count_append_all_ne _ _ _ (fun b hb => (hcN b hb).2.2.2)]
      rw [hlt] at h4
      simpa using h4
    · cases k
      · simp only [listClosePart, hlt]
        rw [count_snoc_ne _ _ _ (by decide), count_snoc_ne _ _ _ (by decide)]
        rw [count_append_all_ne _ _ _ (fun b hb => (hcN b hb).2.2.1),
          count_append_all_ne _ _ _ (fun b hb => (hcN b hb).2.2.2)]
        rw [hlt] at h4
        simpa using h4
      · simp only [listClosePart, hlt]
        rw [count_snoc_ne _ _ _ (by decide), count_snoc_self]
        rw [count_append_all_ne _ _ _ (fun b hb => (hcN b hb).2.2.1),
          count_append_all_ne _ _ _ (fun b hb => (hcN b hb).2.2.2)]
        rw [hlt] at h4
        simp at h4 ⊢
        omega

/-- A fresh section satisfies the invariant. -/
theorem InvSec_newSection (slug : Str → Str) (ttl : Str) (lvl : Nat) :
    InvSec (newSection slug ttl lvl) :=
  ⟨fun _ => rfl, by simp [newSection], by simp [newSection], by simp [newSection]⟩

/-- Opening a ul wrapper on a closed section respects the invariant. -/
theorem InvSec_openUl {c : ReportSection} (hc : ClosedSec c) :
    InvSec { c with blocks := c.blocks ++ ["<ul>".data], listType := some ListKind.ul } := by
  obtain ⟨c1, c2, c3, c4, c5, c6⟩ := hc
  refine ⟨fun _ => c2, by rw [c4]; simp, ?_, ?_⟩
  · rw [count_snoc_self, count_snoc_ne _ _ _ (by decide)]
    simp [c5]
  · rw [count_snoc_ne _ _ _ (by decide), count_snoc_ne _ _ _ (by decide)]
    simp [c6]

/-- Opening an ol wrapper on a closed section respects the invariant. -/
theorem InvSec_openOl {c : ReportSection} (hc : ClosedSec c) :
    InvSec { c with blocks := c.blocks ++ ["<ol>".data], listType := some ListKind.ol } := by
  obtain ⟨c1, c2, c3, c4, c5, c6⟩ := hc
  refine ⟨fun _ => c2, by rw [c4]; simp, ?_, ?_⟩
  · rw [count_snoc_ne _ _ _ (by decide), count_snoc_ne _ _ _ (by decide)]
    simp [c5]
  · rw [count_snoc_self, count_snoc_ne _ _ _ (by decide)]
    simp [c6]

/-- Closing an open ul wrapper respects the invariant. -/
theorem InvSec_closeUl {sec : ReportSection} (h : InvSec sec)
    (hlt : sec.listType = some ListKind.ul) :
    InvSec { sec with blocks := sec.blocks ++ ["</ul>".data], listType := none } := by
  obtain ⟨h1, h2, h3, h4⟩ := h
  rw [hlt] at h3 h4
  refine ⟨h1, h2, ?_, ?_⟩
  · rw [count_snoc_ne _ _ _ (by decide), count_snoc_self]
    simp at h3 ⊢
    omega
  · rw [count_snoc_ne _ _ _ (by decide), count_snoc_ne _ _ _ (by decide)]
    simpa using h4

/-- Closing an open ol wrapper respects the invariant. -/
theorem InvSec_closeOl {sec : ReportSection} (h : InvSec sec)
    (hlt : sec.listType = some ListKind.ol) :
    InvSec { sec with blocks := sec.blocks ++ ["</ol>".data], listType := none } := by
  obtain ⟨h1, h2, h3, h4⟩ := h
  rw [hlt] at h3 h4
  refine ⟨h1, h2, ?_, ?_⟩
  · rw [count_snoc_ne _ _ _ (by decide), count_snoc_ne _ _ _ (by decide)]
    simpa using h3
  · rw [count_snoc_ne _ _ _ (by decide), count_snoc_self]
    simp at h4 ⊢
    omega

/-- add_paragraph respects the invariant. -/
theorem addParagraph_inv {sec : ReportSection} (h : InvSec sec) (l : Str) :
    InvSec (addParagraph sec l) := by
  rw [addParagraph]
  split
  · exact h
  · exact InvSec_snoc_neutral h (neutral_paragraph _)

/-- The list/callout/paragraph stage preserves the invariant. -/
theorem listStage_inv (st : PState) (line : Str) (h : InvSec st.current) :
    InvSec (listStage st line).current := by
  rw [listStage]
  cases hul : ulItem line with
  | some content =>
    dsimp only
    split
    · exact InvSec_snoc_neutral (InvSec_openUl (closeOpenBlocks_closed h)) (neutral_li content)
    · exact InvSec_snoc_neutral h (neutral_li content)
  | none =>
    dsimp only
    cases hol : olItem line with
    | some content =>
      dsimp only
      split
      · exact InvSec_snoc_neutral (InvSec_openOl (closeOpenBlocks_closed h)) (neutral_li content)
      · exact InvSec_snoc_neutral h (neutral_li content)
    | none =>
      dsimp only
      rcases hlt : st.current.listType with _ | k
      · dsimp only
        split
        · exact InvSec_snoc_neutral h (neutral_callout line)
        · split
          · exact addParagraph_inv h line
          · exact InvSec_snoc_neutral h neutral_spacer
      · cases k
        · dsimp only
          split
          · exact InvSec_snoc_neutral (InvSec_closeUl h hlt) (neutral_callout line)
          · split
            · exact addParagraph_inv (InvSec_closeUl h hlt) line
            · exact InvSec_snoc_neutral (InvSec_closeUl h hlt) neutral_spacer
        · dsimp only
          split
          · exact InvSec_snoc_neutral (InvSec_closeOl h hlt) (neutral_callout line)
          · split
            · exact addParagraph_inv (InvSec_closeOl h hlt) line
            · exact InvSec_snoc_neutral (InvSec_closeOl h hlt) neutral_spacer

/-- One loop iteration preserves the invariant of the current section. -/
theorem processLine_inv (slug : Str → Str) (st : PState) (raw : Str) (h : InvSec st.current) :
    InvSec (processLine slug st raw).current := by
  obtain ⟨h1, h2, h3, h4⟩ := h
  rw [processLine]
  split
  · split
    · obtain ⟨c1, c2, c3, c4, c5, c6⟩ := closeOpenBlocks_closed ⟨h1, h2, h3, h4⟩
      refine ⟨fun _ => rfl, by rw [c4]; simp, ?_, ?_⟩
      · dsimp only
        rw [c3]
        simpa using c5
      · dsimp only
        rw [c3]
        simpa using c6
    · next hcode =>
      rw [Bool.not_eq_true] at hcode
      refine ⟨fun _ => rfl, h2, ?_, ?_⟩
      · dsimp only
        rw [count_snoc_ne _ _ _ (neutral_codeHtml _).1,
          count_snoc_ne _ _ _ (neutral_codeHtml _).2.1]
        exact h3
      · dsimp only
        rw [count_snoc_ne _ _ _ (neutral_codeHtml _).2.2.1,
          count_snoc_ne _ _ _ (neutral_codeHtml _).2.2.2]
        exact h4
  · split
    · next hcode =>
      refine ⟨?_, h2, h3, h4⟩
      intro hx
      dsimp only at hx
      rw [hcode] at hx
      exact absurd hx (by decide)
    · split
      · exact InvSec_newSection slug _ _
      · split
        · exact InvSec_newSection slug _ _
        · split
          · split
            · next htr =>
              obtain ⟨c1, c2, c3, c4, c5, c6⟩ := closeOpenBlocks_closed ⟨h1, h2, h3, h4⟩
              refine ⟨fun _ => c2, by simp, ?_, ?_⟩
              · dsimp only
                rw [c3]
                simpa using c5
              · dsimp only
                rw [c3]
                simpa using c6
            · refine ⟨h1, by simp, h3, h4⟩
          · split
            · split
              · refine ⟨h1, by simp, ?_, ?_⟩
                · dsimp only
                  rw [count_snoc_ne _ _ _ (neutral_renderTable _).1,
                    count_snoc_ne _ _ _ (neutral_renderTable _).2.1]
                  exact h3
                · dsimp only
                  rw [count_snoc_ne _ _ _ (neutral_renderTable _).2.2.1,
                    count_snoc_ne _ _ _ (neutral_renderTable _).2.2.2]
                  exact h4
              · refine listStage_inv _ _ ?_
                refine ⟨h1, by simp, ?_, ?_⟩
                · dsimp only
                  rw [count_snoc_ne _ _ _ (neutral_renderTable _).1,
                    count_snoc_ne _ _ _ (neutral_renderTable _).2.1]
                  exact h3
                · dsimp only
                  rw [count_snoc_ne _ _ _ (neutral_renderTable _).2.2.1,
                    count_snoc_ne _ _ _ (neutral_renderTable _).2.2.2]
                  exact h4
            · exact listStage_inv _ _ ⟨h1, h2, h3, h4⟩

/-- The loop keeps the current section invariant and every finished section
    closed. -/
theorem foldl_closed (slug : Str → Str) (lines : List Str) :
    ∀ st : PState, InvSec st.current → (∀ s ∈ st.sections, ClosedSec s) →
      InvSec ((lines.foldl (processLine slug) st).current) ∧
      ∀ s ∈ (lines.foldl (processLine slug) st).sections, ClosedSec s := by
  induction lines with
  | nil => intro st h1 h2; exact ⟨h1, h2⟩
  | cons l ls ih =>
    intro st h1 h2
    rw [List.foldl_cons]
    refine ih _ (processLine_inv slug st l h1) ?_
    rcases processLine_cases slug st l with ⟨hs, -, -⟩ | hs
    · rw [hs]; exact h2
    · rw [hs]
      intro s hsmem
      rcases List.mem_append.mp hsmem with hm | hm
      · exact h2 s hm
      · rw [List.mem_singleton] at hm
        subst hm
        exact closeOpenBlocks_closed h1

/-- Claim C1: close_open_blocks flushes the open code block, then the open
    list, then the table buffer — in that order — and every section the
    builder returns is closed: no open code block or buffer, no open list,
    no unflushed table, balanced ul and ol wrappers. -/
theorem C1_close_order_and_closed :
    (∀ sec : ReportSection,
      (closeOpenBlocks sec).blocks =
        sec.blocks ++ codeFlushPart sec ++ listClosePart sec ++ tableFlushPart sec) ∧
    (∀ (slug : Str → Str) (text : Str), ∀ sec ∈ parseToSections slug text, ClosedSec sec) := by
  refine ⟨closeOpenBlocks_order, ?_⟩
  intro slug text sec hmem
  have hres : parseToSections slug text =
      ((splitlines text).foldl (processLine slug)
          { sections := [], current := newSection slug defaultTitle 1 }).sections ++
        [closeOpenBlocks ((splitlines text).foldl (processLine slug)
          { sections := [], current := newSection slug defaultTitle 1 }).current] := rfl
  rw [hres] at hmem
  obtain ⟨hinv, hclosed⟩ := foldl_closed slug (splitlines text)
      { sections := [], current := newSection slug defaultTitle 1 }
      (InvSec_newSection slug _ _) (by intro s hs; simp at hs)
  rcases List.mem_append.mp hmem with hm | hm
  · exact hclosed sec hm
  · rw [List.mem_singleton] at hm
    subst hm
    exact closeOpenBlocks_closed hinv

/-- Claim C1 witness: the closedness statement applied to the single section
    produced by the concrete input "- a" (an open list at end-of-input). -/
theorem C1_witness :
    ClosedSec { newSection slugNull defaultTitle 1 with
                  blocks := ["<ul>".data, "<li>a</li>".data, "</ul>".data] } :=
  C1_close_order_and_closed.2 slugNull "- a".data _ (by decide)

/- ===== Claim C6 ===== -/

/-- The link entries of a navigation fragment: everything that is not a
    wrapper token. -/
def navLinks (l : List Str) : List Str :=
  l.filter fun t => !(t == tocOpen) && !(t == tocClose)

/-- The nesting depth at which each link entry of a navigation fragment
    sits, starting from the given depth. -/
def linkDepths : List Str → Int → List Int
  | [], _ => []
  | t :: rest, d =>
      if t == tocOpen then linkDepths rest (d + 1)
      else if t == tocClose then linkDepths rest (d - 1)
      else d :: linkDepths rest d

/-- Net wrapper balance of a navigation fragment. -/
def navDelta (l : List Str) : Int :=
  (l.count tocOpen : Int) - (l.count tocClose : Int)

theorem navDelta_nil : navDelta [] = 0 := rfl

theorem navDelta_append (a b : List Str) : navDelta (a ++ b) = navDelta a + navDelta b := by
  simp only [navDelta, List.count_append]
  push_cast
  ring

theorem navLinks_append (a b : List Str) : navLinks (a ++ b) = navLinks a ++ navLinks b := by
  simp [navLinks]

theorem linkDepths_append (a : List Str) :
    ∀ (b : List Str) (d : Int), linkDepths (a ++ b) d = linkDepths a d ++ linkDepths b (d + navDelta a) := by
  induction a with
  | nil => intro b d; simp [linkDepths, navDelta_nil]
  | cons t rest ih =>
    intro b d
    by_cases ht : t = tocOpen
    · subst ht
      rw [List.cons_append, linkDepths, linkDepths]
      simp only [beq_self_eq_true, if_true]
      rw [ih b (d + 1)]
      have : navDelta (tocOpen :: rest) = 1 + navDelta rest := by
        simp [navDelta, List.count_cons, show (tocOpen == tocClose) = false from by decide]
        ring
      rw [this]
      ring_nf
    · by_cases ht2 : t = tocClose
      · subst ht2
        rw [List.cons_append, linkDepths, linkDepths]
        have hne : (tocClose == tocOpen) = false := by decide
        simp only [hne, Bool.false_eq_true, if_false, beq_self_eq_true, if_true]
        rw [ih b (d - 1)]
        have : navDelta (tocClose :: rest) = navDelta rest - 1 := by
          simp [navDelta, List.count_cons, show (tocClose == tocOpen) = false by decide]
          ring
        rw [this]
        ring_nf
      · rw [List.cons_append, linkDepths, linkDepths]
        have hne1 : (t == tocOpen) = false := by simp [ht]
        have hne2 : (t == tocClose) = false := by simp [ht2]
        simp only [hne1, hne2, Bool.false_eq_true, if_false]
        rw [ih b d]
        have hd : navDelta (t :: rest) = navDelta rest := by
          simp [navDelta, List.count_cons, hne1, hne2]
        rw [hd]
        rfl

theorem navLinks_replicate_open (k : Nat) : navLinks (List.replicate k tocOpen) = [] := by
  induction k with
  | zero => rfl
  | succ n ih =>
    rw [List.replicate_succ]
    simp [navLinks]

theorem navLinks_replicate_close (k : Nat) : navLinks (List.replicate k tocClose) = [] := by
  induction k with
  | zero => rfl
  | succ n ih =>
    rw [List.replicate_succ]
    simp [navLinks]

theorem linkDepths_replicate_open (k : Nat) :
    ∀ d : Int, linkDepths (List.replicate k tocOpen) d = [] := by
  induction k with
  | zero => intro d; rfl
  | succ n ih =>
    intro d
    rw [List.replicate_succ, linkDepths]
    simp only [beq_self_eq_true, if_true]
    exact ih (d + 1)

theorem linkDepths_replicate_close (k : Nat) :
    ∀ d : Int, linkDepths (List.replicate k tocClose) d = [] := by
  induction k with
  | zero => intro d; rfl
  | succ n ih =>
    intro d
    rw [List.replicate_succ, linkDepths]
    simp only [show (tocClose == tocOpen) = false from by decide, beq_self_eq_true,
      Bool.false_eq_true, if_false, if_true]
    exact ih (d - 1)

theorem navDelta_replicate_open (k : Nat) : navDelta (List.replicate k tocOpen) = k := by
  simp [navDelta, List.count_replicate, show (tocOpen == tocClose) = false from by decide]

theorem navDelta_replicate_close (k : Nat) : navDelta (List.replicate k tocClose) = -(k : Int) := by
  simp [navDelta, List.count_replicate, show (tocClose == tocOpen) = false from by decide]

/-- The link tokens themselves are neither wrapper token. -/
theorem mkLink_ne_toc (sec : ReportSection) : mkLink sec ≠ tocOpen ∧ mkLink sec ≠ tocClose :=
  ⟨cons2_ne (by decide), cons2_ne (by decide)⟩

theorem navLinks_mkLink (sec : ReportSection) : navLinks [mkLink sec] = [mkLink sec] := by
  obtain ⟨h1, h2⟩ := mkLink_ne_toc sec
  simp [navLinks, h1, h2]

theorem linkDepths_mkLink (sec : ReportSection) (d : Int) :
    linkDepths [mkLink sec] d = [d] := by
  obtain ⟨h1, h2⟩ := mkLink_ne_toc sec
  rw [linkDepths]
  simp only [beq_eq_false_iff_ne.mpr h1, beq_eq_false_iff_ne.mpr h2, Bool.false_eq_true, if_false]
  rfl

theorem navDelta_mkLink (sec : ReportSection) : navDelta [mkLink sec] = 0 := by
  obtain ⟨h1, h2⟩ := mkLink_ne_toc sec
  simp [navDelta, List.count_singleton, beq_eq_false_iff_ne.mpr h1, beq_eq_false_iff_ne.mpr h2]

/-- The opening while-loop with sufficient fuel: it opens exactly
    lvl - prev wrappers and raises prev to lvl. -/
theorem navOpenLoop_spec :
    ∀ (fuel : Nat) (nav : List Str) (stack : List Nat) (prev lvl : Nat),
      prev ≤ lvl → lvl - prev ≤ fuel →
      navOpenLoop fuel nav stack prev lvl =
        (nav ++ List.replicate (lvl - prev) tocOpen,
         stack ++ List.replicate (lvl - prev) 1, lvl) := by
  intro fuel
  induction fuel with
  | zero =>
    intro nav stack prev lvl hle hfuel
    have heq : lvl = prev := by omega
    subst heq
    simp [navOpenLoop]
  | succ n ih =>
    intro nav stack prev lvl hle hfuel
    rw [navOpenLoop]
    by_cases hlt : prev < lvl
    · rw [if_pos hlt, ih _ _ _ _ (by omega) (by omega)]
      have hk : lvl - prev = (lvl - (prev + 1)) + 1 := by omega
      rw [hk, List.replicate_succ]
      simp [List.replicate_succ]
    · rw [if_neg hlt]
      have hq : lvl = prev := by omega
      subst hq
      simp

/-- With the level not above prev, the opening loop does nothing. -/
theorem navOpenLoop_noop (fuel : Nat) (nav : List Str) (stack : List Nat) (prev lvl : Nat)
    (h : ¬prev < lvl) :
    navOpenLoop fuel nav stack prev lvl = (nav, stack, prev) := by
  cases fuel with
  | zero => rfl
  | succ n => rw [navOpenLoop, if_neg h]

/-- The closing while-loop with sufficient fuel and a stack matching prev:
    it closes exactly prev - lvl wrappers and lowers prev to lvl. -/
theorem navCloseLoop_spec :
    ∀ (fuel : Nat) (nav : List Str) (stack : List Nat) (prev lvl : Nat),
      lvl ≤ prev → 1 ≤ lvl → stack.length = prev + 1 → prev - lvl ≤ fuel →
      ∃ stack',
        navCloseLoop fuel nav stack prev lvl =
          (nav ++ List.replicate (prev - lvl) tocClose, stack', lvl) ∧
        stack'.length = lvl + 1 := by
  intro fuel
  induction fuel with
  | zero =>
    intro nav stack prev lvl hge h1 hlen hfuel
    have hq : prev = lvl := by omega
    subst hq
    exact ⟨stack, by simp [navCloseLoop], hlen⟩
  | succ n ih =>
    intro nav stack prev lvl hge h1 hlen hfuel
    rw [navCloseLoop]
    by_cases hlt : lvl < prev
    · rw [if_pos hlt]
      have hguard : 1 < stack.length := by omega
      rw [closeUl, if_pos hguard]
      have hlen' : stack.dropLast.length = (prev - 1) + 1 := by
        rw [List.length_dropLast]
        omega
      obtain ⟨stack', hrec, hlen2⟩ := ih (nav ++ [tocClose]) stack.dropLast (prev - 1) lvl
        (by omega) h1 hlen' (by omega)
      refine ⟨stack', ?_, hlen2⟩
      rw [hrec]
      have hk : prev - lvl = ((prev - 1) - lvl) + 1 := by omega
      rw [hk, List.replicate_succ]
      simp
    · rw [if_neg hlt]
      have hq : prev = lvl := by omega
      subst hq
      exact ⟨stack, by simp, hlen⟩

/-- The final closing loop with sufficient fuel closes the whole stack. -/
theorem navFinalGo_spec :
    ∀ (fuel : Nat) (nav : List Str) (stack : List Nat),
      stack.length - 1 ≤ fuel →
      navFinalGo fuel nav stack = nav ++ List.replicate (stack.length - 1) tocClose := by
  intro fuel
  induction fuel with
  | zero =>
    intro nav stack hfuel
    have h1 : stack.length ≤ 1 := by omega
    rw [navFinalGo]
    have : stack.length - 1 = 0 := by omega
    rw [this]
    simp
  | succ n ih =>
    intro nav stack hfuel
    rw [navFinalGo]
    by_cases hguard : 1 < stack.length
    · rw [if_pos hguard, closeUl, if_pos hguard]
      rw [ih (nav ++ [tocClose]) stack.dropLast (by rw [List.length_dropLast]; omega)]
      rw [List.length_dropLast]
      have hk : stack.length - 1 = (stack.length - 1 - 1) + 1 := by omega
      conv_rhs => rw [hk]
      rw [List.replicate_succ]
      simp
    · rw [if_neg hguard]
      have : stack.length - 1 = 0 := by omega
      rw [this]
      simp

/-- The per-section loop of build_nav, from any already-opened state whose
    stack height matches prev: it emits one link per section, in order, each
    at depth equal to its clamped level. -/
theorem navGo_spec (sections : List ReportSection) :
    ∀ (nav : List Str) (stack : List Nat) (prev : Nat),
      1 ≤ prev → prev ≤ 6 → stack.length = prev + 1 →
      ∃ ext q stack',
        navGo sections nav stack prev true = (nav ++ ext, stack') ∧
        1 ≤ q ∧ q ≤ 6 ∧ stack'.length = q + 1 ∧
        navLinks ext = sections.map mkLink ∧
        linkDepths ext (prev : Int) =
          sections.map (fun s => (clampLevel s.level : Int)) ∧
        navDelta ext = (q : Int) - (prev : Int) := by
  induction sections with
  | nil =>
    intro nav stack prev h1 h6 hlen
    exact ⟨[], prev, stack, by simp [navGo], h1, h6, hlen, rfl, rfl, by simp [navDelta_nil]⟩
  | cons sec rest ih =>
    intro nav stack prev h1 h6 hlen
    rw [navGo]
    simp only [reduceIte]
    have hl1 : 1 ≤ max 1 (min 6 sec.level) := le_max_left 1 _
    have hl6 : max 1 (min 6 sec.level) ≤ 6 :=
      max_le (by norm_num) (min_le_left 6 sec.level)
    have hclamp : (clampLevel sec.level : Int) = ((max 1 (min 6 sec.level) : Nat) : Int) := rfl
    by_cases hcase : prev ≤ max 1 (min 6 sec.level)
    · rw [navOpenLoop_spec (max 1 (min 6 sec.level)) nav stack prev (max 1 (min 6 sec.level))
        hcase (by omega)]
      have hlen' : (stack ++ List.replicate (max 1 (min 6 sec.level) - prev) 1).length =
          max 1 (min 6 sec.level) + 1 := by
        rw [List.length_append, List.length_replicate]
        omega
      obtain ⟨stack2, hclose, hlen2⟩ := navCloseLoop_spec (max 1 (min 6 sec.level))
        (nav ++ List.replicate (max 1 (min 6 sec.level) - prev) tocOpen)
        (stack ++ List.replicate (max 1 (min 6 sec.level) - prev) 1)
        (max 1 (min 6 sec.level)) (max 1 (min 6 sec.level))
        (Nat.le_refl _) hl1 hlen' (by omega)
      rw [hclose]
      rw [Nat.sub_self, List.replicate_zero, List.append_nil]
      obtain ⟨ext, q, stack', hgo, hq1, hq6, hlen3, hlinks, hdepths, hdelta⟩ :=
        ih ((nav ++ List.replicate (max 1 (min 6 sec.level) - prev) tocOpen) ++ [mkLink sec])
          stack2 (max 1 (min 6 sec.level)) hl1 hl6 hlen2
      rw [hgo]
      refine ⟨List.replicate (max 1 (min 6 sec.level) - prev) tocOpen ++ [mkLink sec] ++ ext,
        q, stack', by simp, hq1, hq6, hlen3, ?_, ?_, ?_⟩
      · rw [navLinks_append, navLinks_append, navLinks_replicate_open, navLinks_mkLink, hlinks]
        simp
      · rw [linkDepths_append, linkDepths_append, navDelta_append, linkDepths_replicate_open,
          navDelta_replicate_open, linkDepths_mkLink, navDelta_mkLink]
        simp only [add_zero]
        have hcast : (prev : Int) + ((max 1 (min 6 sec.level) - prev : Nat) : Int) =
            ((max 1 (min 6 sec.level) : Nat) : Int) := by
          push_cast [hcase]
          ring
        rw [hcast, hdepths]
        simp [hclamp]
      · rw [navDelta_append, navDelta_append, navDelta_replicate_open, navDelta_mkLink, hdelta]
        push_cast [hcase]
        ring
    · have hge : max 1 (min 6 sec.level) ≤ prev := by omega
      rw [navOpenLoop_noop (max 1 (min 6 sec.level)) nav stack prev (max 1 (min 6 sec.level))
        (by omega)]
      obtain ⟨stack2, hclose, hlen2⟩ := navCloseLoop_spec prev nav stack prev
        (max 1 (min 6 sec.level)) hge hl1 hlen (by omega)
      rw [hclose]
      obtain ⟨ext, q, stack', hgo, hq1, hq6, hlen3, hlinks, hdepths, hdelta⟩ :=
        ih ((nav ++ List.replicate (prev - max 1 (min 6 sec.level)) tocClose) ++ [mkLink sec])
          stack2 (max 1 (min 6 sec.level)) hl1 hl6 hlen2
      rw [hgo]
      refine ⟨List.replicate (prev - max 1 (min 6 sec.level)) tocClose ++ [mkLink sec] ++ ext,
        q, stack', by simp, hq1, hq6, hlen3, ?_, ?_, ?_⟩
      · rw [navLinks_append, navLinks_append, navLinks_replicate_close, navLinks_mkLink, hlinks]
        simp
      · rw [linkDepths_append, linkDepths_append, navDelta_append, linkDepths_replicate_close,
          navDelta_replicate_close, linkDepths_mkLink, navDelta_mkLink]
        simp only [add_zero]
        have hcast : (prev : Int) + -((prev - max 1 (min 6 sec.level) : Nat) : Int) =
            ((max 1 (min 6 sec.level) : Nat) : Int) := by
          push_cast [hge]
          ring
        rw [hcast, hdepths]
        simp [hclamp]
      · rw [navDelta_append, navDelta_append, navDelta_replicate_close, navDelta_mkLink, hdelta]
        push_cast [hge]
        ring

theorem linkDepths_single_open (d : Int) : linkDepths [tocOpen] d = [] := rfl

theorem navDelta_single_open : navDelta [tocOpen] = 1 := by decide

/-- Claim C6: build_nav emits exactly one link per section (href '#' + id,
    escaped title), in section order, skipping none; each link sits at
    nesting depth equal to the section's level clamped to 1..6; and every
    opened wrapper is closed by the end of the output. -/
theorem C6_nav (sections : List ReportSection) :
    navLinks (buildNavList sections) = sections.map mkLink ∧
    linkDepths (buildNavList sections) 0 =
      sections.map (fun s => (clampLevel s.level : Int)) ∧
    (buildNavList sections).count tocOpen = (buildNavList sections).count tocClose := by
  cases sections with
  | nil => exact ⟨rfl, rfl, rfl⟩
  | cons sec rest =>
    rw [buildNavList, navGo]
    simp only [Bool.false_eq_true, reduceIte]
    have hl1 : 1 ≤ max 1 (min 6 sec.level) := le_max_left 1 _
    have hl6 : max 1 (min 6 sec.level) ≤ 6 :=
      max_le (by norm_num) (min_le_left 6 sec.level)
    have hclamp : (clampLevel sec.level : Int) = ((max 1 (min 6 sec.level) : Nat) : Int) := rfl
    rw [navOpenLoop_spec (max 1 (min 6 sec.level)) ([] ++ [tocOpen]) ([0] ++ [1]) 1
      (max 1 (min 6 sec.level)) hl1 (by omega)]
    have hlen' : (([0] ++ [1]) ++ List.replicate (max 1 (min 6 sec.level) - 1) 1).length =
        max 1 (min 6 sec.level) + 1 := by
      simp only [List.length_append, List.length_replicate, List.length_cons, List.length_nil]
      omega
    obtain ⟨stack2, hclose, hlen2⟩ := navCloseLoop_spec (max 1 (min 6 sec.level))
      (([] ++ [tocOpen]) ++ List.replicate (max 1 (min 6 sec.level) - 1) tocOpen)
      (([0] ++ [1]) ++ List.replicate (max 1 (min 6 sec.level) - 1) 1)
      (max 1 (min 6 sec.level)) (max 1 (min 6 sec.level)) (Nat.le_refl _) hl1 hlen'
      (by omega)
    rw [hclose, Nat.sub_self, List.replicate_zero, List.append_nil]
    obtain ⟨ext, q, stack', hgo, hq1, hq6, hlen3, hlinks, hdepths, hdelta⟩ :=
      navGo_spec rest ((([] ++ [tocOpen]) ++
          List.replicate (max 1 (min 6 sec.level) - 1) tocOpen) ++ [mkLink sec])
        stack2 (max 1 (min 6 sec.level)) hl1 hl6 hlen2
    rw [hgo]
    dsimp only
    rw [navFinalGo_spec stack'.length _ stack' (by omega), hlen3]
    have hq : q + 1 - 1 = q := by omega
    rw [hq]
    refine ⟨?_, ?_, ?_⟩
    · simp only [navLinks_append, navLinks_replicate_open, navLinks_replicate_close,
        navLinks_mkLink, hlinks]
      simp [navLinks]
    · simp only [linkDepths_append, navDelta_append, linkDepths_replicate_open,
        linkDepths_replicate_close, navDelta_replicate_open, navDelta_replicate_close,
        linkDepths_mkLink, navDelta_mkLink, linkDepths_single_open, navDelta_single_open,
        navDelta_nil, add_zero, zero_add, List.nil_append, List.append_nil]
      have hcast : (1 : Int) + ((max 1 (min 6 sec.level) - 1 : Nat) : Int) =
          ((max 1 (min 6 sec.level) : Nat) : Int) := by
        push_cast [hl1]
        ring
      rw [hcast, hdepths]
      simp [hclamp]
    · have hdtot : navDelta (((([] ++ [tocOpen]) ++
          List.replicate (max 1 (min 6 sec.level) - 1) tocOpen) ++ [mkLink sec]) ++ ext ++
          List.replicate q tocClose) = 0 := by
        simp only [navDelta_append, navDelta_replicate_open, navDelta_replicate_close,
          navDelta_mkLink, navDelta_single_open, hdelta, navDelta_nil, List.nil_append]
        push_cast [hl1]
        ring
      simp only [navDelta] at hdtot
      omega
